import Mathlib

/-!
Verification of the FELIX-WATCHER moderation bot (src/bot.py) against its
natural-language specification.

The development shallowly embeds the core state-reconciliation engine of
bot.py: the sidecar text codecs (parse_topic, market_meta/parse_market_meta),
the ticket lifecycle (TicketOpenView._create_ticket,
TicketManageView.claim_ticket), the marketplace-listing lifecycle
(MarketListingView.contact/claim/close), the mute lifecycle (mute, unmute,
the role-backup helpers) and the expiry sweep (auto_unmute_loop).

Python strings are modelled as `List Char`; the SQLite tables `mutes` and
`mute_role_backup` as association lists keyed by (guild_id, user_id), where
INSERT OR REPLACE deletes the old row and inserts the new one; remote
(Discord) calls that can raise are modelled by explicit failure flags in the
environment.  Every definition is translated from src/bot.py (line numbers in
the comments); display-only strings (localized user-facing messages, embed
cosmetic text) are abridged where no property depends on their content.
-/

/-! ## Python string primitives over `List Char` -/

/-- Python `str.strip()` whitespace set (ASCII part): space, \t, \n, \r, \x0b, \x0c. -/
def isPyWs (c : Char) : Bool :=
  c.toNat = 32 || c.toNat = 9 || c.toNat = 10 || c.toNat = 13 || c.toNat = 11 || c.toNat = 12

/-- Python `str.isdigit()` restricted to ASCII digits `'0'`-`'9'`. -/
def isPyDigit (c : Char) : Bool :=
  decide (48 ≤ c.toNat ∧ c.toNat ≤ 57)

/-- Python `str.strip()`: drop leading and trailing whitespace. -/
def pyStrip (s : List Char) : List Char :=
  ((s.dropWhile isPyWs).reverse.dropWhile isPyWs).reverse

/-- Python `str.split(sep)` for a one-character separator: `n` separators
always yield `n+1` (possibly empty) segments, e.g. `"".split(",") = [""]`. -/
def splitCh (sep : Char) : List Char → List (List Char)
  | [] => [[]]
  | c :: rest =>
    match splitCh sep rest with
    | [] => [[]]
    | p :: ps => if c = sep then [] :: p :: ps else (c :: p) :: ps

/-- Python `sep.join(parts)`. -/
def pyJoin (sep : List Char) : List (List Char) → List Char
  | [] => []
  | [p] => p
  | p :: q :: rest => p ++ sep ++ pyJoin sep (q :: rest)

/-- Python `s.split("=", 1)` when `"=" in s`: the text before the first `'='`
and the text after it; `none` when there is no `'='`. -/
def splitEq : List Char → Option (List Char × List Char)
  | [] => none
  | c :: rest =>
    if c = '=' then some ([], rest)
    else
      match splitEq rest with
      | none => none
      | some (k, v) => some (c :: k, v)

/-- Python substring test `needle in hay`. -/
def listContains (needle : List Char) : List Char → Bool
  | [] => needle.isEmpty
  | c :: t => needle.isPrefixOf (c :: t) || listContains needle t

/-- Decimal digit character for a value below ten (`str(d)` for one digit). -/
def digitChar : Nat → Char
  | 0 => '0'
  | 1 => '1'
  | 2 => '2'
  | 3 => '3'
  | 4 => '4'
  | 5 => '5'
  | 6 => '6'
  | 7 => '7'
  | 8 => '8'
  | _ => '9'

/-- Fuel-driven decimal rendering; `fuel > n` suffices. -/
def natReprAux : Nat → Nat → List Char
  | 0, _ => []
  | fuel + 1, n =>
    if n < 10 then [digitChar n]
    else natReprAux fuel (n / 10) ++ [digitChar (n % 10)]

/-- Python `str(n)` for a nonnegative integer. -/
def natRepr (n : Nat) : List Char := natReprAux (n + 1) n

/-- Python `int(s)` on a string of decimal digits. -/
def digitsToNat (s : List Char) : Nat :=
  s.foldl (fun a c => 10 * a + (c.toNat - 48)) 0

/-- Python `str.lower()` on an ASCII character. -/
def pyLowerChar (c : Char) : Char :=
  if 65 ≤ c.toNat ∧ c.toNat ≤ 90 then Char.ofNat (c.toNat + 32) else c

/-! ## Python dict over association lists (insertion order preserved) -/

/-- Python dict assignment `d[k] = v`: update the binding in place if the key
is present, otherwise append it. -/
def dictSet : List (List Char × List Char) → List Char → List Char → List (List Char × List Char)
  | [], k, v => [(k, v)]
  | kv :: rest, k, v =>
    if kv.1 = k then (k, v) :: rest else kv :: dictSet rest k v

/-- Python `d.get(k)`. -/
def dictGet (m : List (List Char × List Char)) (k : List Char) : Option (List Char) :=
  (m.find? (fun kv => kv.1 == k)).map (·.2)

/-! ## Basic lemmas about the primitives -/

theorem splitCh_ne_nil (sep : Char) (s : List Char) : splitCh sep s ≠ [] := by
  cases s with
  | nil => simp [splitCh]
  | cons c rest =>
    simp only [splitCh]
    cases h : splitCh sep rest with
    | nil => simp
    | cons p ps =>
      by_cases hc : c = sep <;> simp [hc]

theorem splitCh_no_sep (sep : Char) (s : List Char) (h : sep ∉ s) :
    splitCh sep s = [s] := by
  induction s with
  | nil => rfl
  | cons c rest ih =>
    have hc : c ≠ sep := fun hcs => h (hcs ▸ List.mem_cons_self c rest)
    have hrest : sep ∉ rest := fun hm => h (List.mem_cons_of_mem c hm)
    simp only [splitCh, ih hrest]
    simp [hc]

theorem splitCh_append_sep (sep : Char) (p rest : List Char) (h : sep ∉ p) :
    splitCh sep (p ++ sep :: rest) = p :: splitCh sep rest := by
  induction p with
  | nil =>
    simp only [List.nil_append, splitCh]
    cases hr : splitCh sep rest with
    | nil => exact absurd hr (splitCh_ne_nil sep rest)
    | cons q qs => simp
  | cons c p' ih =>
    have hc : c ≠ sep := fun hcs => h (hcs ▸ List.mem_cons_self c p')
    have hp' : sep ∉ p' := fun hm => h (List.mem_cons_of_mem c hm)
    simp only [List.cons_append, splitCh, List.append_eq]
    rw [ih hp']
    simp [hc]

theorem splitCh_cons_ne (sep c : Char) (s : List Char) (h : c ≠ sep) :
    ∃ q qs, splitCh sep s = q :: qs ∧ splitCh sep (c :: s) = (c :: q) :: qs := by
  cases hs : splitCh sep s with
  | nil => exact absurd hs (splitCh_ne_nil sep s)
  | cons q qs =>
    refine ⟨q, qs, rfl, ?_⟩
    simp [splitCh, hs, h]

theorem splitEq_append (k v : List Char) (h : '=' ∉ k) :
    splitEq (k ++ '=' :: v) = some (k, v) := by
  induction k with
  | nil => simp [splitEq]
  | cons c k' ih =>
    have hc : c ≠ '=' := fun hce => h (hce ▸ List.mem_cons_self c k')
    have hk' : '=' ∉ k' := fun hm => h (List.mem_cons_of_mem c hm)
    simp [splitEq, hc, ih hk']

theorem isPrefixOf_append_self (l r : List Char) : l.isPrefixOf (l ++ r) = true := by
  induction l with
  | nil => simp [List.isPrefixOf]
  | cons c t ih => simp [List.isPrefixOf, ih]

theorem listContains_append_mid (n x y : List Char) :
    listContains n (x ++ (n ++ y)) = true := by
  induction x with
  | nil =>
    cases hn : n ++ y with
    | nil =>
      have : n = [] := by
        cases n with
        | nil => rfl
        | cons a b => simp at hn
      simp [this, listContains]
    | cons c t =>
      simp only [List.nil_append, hn, listContains]
      rw [← hn, isPrefixOf_append_self]
      simp
  | cons c t ih =>
    simp only [List.cons_append, listContains, List.append_eq]
    rw [ih]
    simp

theorem digitChar_isPyDigit (n : Nat) (h : n < 10) : isPyDigit (digitChar n) = true := by
  interval_cases n <;> decide

theorem digitChar_val (n : Nat) (h : n < 10) : (digitChar n).toNat - 48 = n := by
  interval_cases n <;> decide

theorem digitsToNat_append_one (s : List Char) (c : Char) :
    digitsToNat (s ++ [c]) = 10 * digitsToNat s + (c.toNat - 48) := by
  simp [digitsToNat, List.foldl_append]

theorem natReprAux_ok :
    ∀ fuel n, n < fuel →
      natReprAux fuel n ≠ [] ∧ (∀ c ∈ natReprAux fuel n, isPyDigit c = true) ∧
        digitsToNat (natReprAux fuel n) = n := by
  intro fuel
  induction fuel with
  | zero => intro n hn; omega
  | succ fuel ih =>
    intro n hn
    by_cases h10 : n < 10
    · simp only [natReprAux, if_pos h10]
      refine ⟨by simp, ?_, ?_⟩
      · intro c hc
        simp only [List.mem_singleton] at hc
        exact hc ▸ digitChar_isPyDigit n h10
      · simp [digitsToNat, digitChar_val n h10]
    · have hdiv : n / 10 < fuel := by
        have h1 : n / 10 < n := Nat.div_lt_self (by omega) (by omega)
        omega
      obtain ⟨hne, hdig, hval⟩ := ih (n / 10) hdiv
      simp only [natReprAux, if_neg h10]
      refine ⟨by simp [hne], ?_, ?_⟩
      · intro c hc
        rcases List.mem_append.mp hc with hc1 | hc2
        · exact hdig c hc1
        · simp only [List.mem_singleton] at hc2
          exact hc2 ▸ digitChar_isPyDigit (n % 10) (Nat.mod_lt n (by omega))
      · rw [digitsToNat_append_one, hval, digitChar_val (n % 10) (Nat.mod_lt n (by omega))]
        omega

theorem natRepr_ne_nil (n : Nat) : natRepr n ≠ [] :=
  (natReprAux_ok (n + 1) n (Nat.lt_succ_self n)).1

theorem natRepr_digits (n : Nat) : ∀ c ∈ natRepr n, isPyDigit c = true :=
  (natReprAux_ok (n + 1) n (Nat.lt_succ_self n)).2.1

theorem digitsToNat_natRepr (n : Nat) : digitsToNat (natRepr n) = n :=
  (natReprAux_ok (n + 1) n (Nat.lt_succ_self n)).2.2

theorem isPyDigit_not_ws (c : Char) (h : isPyDigit c = true) : isPyWs c = false := by
  simp only [isPyDigit, decide_eq_true_eq] at h
  simp only [isPyWs, Bool.or_eq_false_iff, decide_eq_false_iff_not]
  omega

theorem isPyDigit_ne (c : Char) (h : isPyDigit c = true) :
    c ≠ '|' ∧ c ≠ '=' ∧ c ≠ ',' := by
  refine ⟨fun hc => ?_, fun hc => ?_, fun hc => ?_⟩ <;>
    (subst hc; revert h; decide)

/-! ## Whitespace-trimming predicates and `pyStrip` lemmas -/

/-- The string does not start with a Python-strippable whitespace character. -/
def noWsHead : List Char → Bool
  | [] => true
  | c :: _ => !isPyWs c

/-- The string does not end with a Python-strippable whitespace character. -/
def noWsLast (s : List Char) : Bool := noWsHead s.reverse

/-- Neither end of the string carries strippable whitespace: `s.strip() == s`. -/
def wsTrimmed (s : List Char) : Bool := noWsHead s && noWsLast s

theorem noWsHead_dropWhile (s : List Char) (h : noWsHead s = true) :
    s.dropWhile isPyWs = s := by
  cases s with
  | nil => rfl
  | cons c t =>
    simp only [noWsHead, Bool.not_eq_true'] at h
    simp [List.dropWhile, h]

theorem dropWhile_ws_append (pre s : List Char) (h : ∀ c ∈ pre, isPyWs c = true) :
    (pre ++ s).dropWhile isPyWs = s.dropWhile isPyWs := by
  induction pre with
  | nil => rfl
  | cons c t ih =>
    have hc : isPyWs c = true := h c (List.mem_cons_self c t)
    simp only [List.cons_append, List.dropWhile, hc]
    exact ih (fun d hd => h d (List.mem_cons_of_mem c hd))

theorem dropWhile_ws_all (s : List Char) (h : ∀ c ∈ s, isPyWs c = true) :
    s.dropWhile isPyWs = [] := by
  induction s with
  | nil => rfl
  | cons c t ih =>
    simp only [List.dropWhile, h c (List.mem_cons_self c t)]
    exact ih (fun d hd => h d (List.mem_cons_of_mem c hd))

theorem pyStrip_of_trimmed (s : List Char) (h : wsTrimmed s = true) :
    pyStrip s = s := by
  simp only [wsTrimmed, Bool.and_eq_true] at h
  simp only [pyStrip, noWsHead_dropWhile s h.1, noWsHead_dropWhile s.reverse h.2,
    List.reverse_reverse]

theorem pyStrip_sandwich (pre s post : List Char)
    (hpre : ∀ c ∈ pre, isPyWs c = true) (hpost : ∀ c ∈ post, isPyWs c = true)
    (hs : wsTrimmed s = true) :
    pyStrip (pre ++ s ++ post) = s := by
  simp only [wsTrimmed, Bool.and_eq_true] at hs
  cases s with
  | nil =>
    simp only [List.append_nil, List.nil_append]
    have h1 : (pre ++ post).dropWhile isPyWs = post.dropWhile isPyWs :=
      dropWhile_ws_append pre post hpre
    have h2 : post.dropWhile isPyWs = [] := dropWhile_ws_all post hpost
    simp [pyStrip, List.append_assoc, h1, h2]
  | cons a s' =>
    have hhead : isPyWs a = false := by
      have := hs.1
      simpa [noWsHead] using this
    have step1 : (pre ++ (a :: s') ++ post).dropWhile isPyWs = (a :: s') ++ post := by
      rw [List.append_assoc, dropWhile_ws_append pre _ hpre]
      simp [List.dropWhile, hhead]
    rw [pyStrip, step1]
    have hrev : ((a :: s') ++ post).reverse = post.reverse ++ (a :: s').reverse := by
      simp
    rw [hrev, dropWhile_ws_append post.reverse _ (fun c hc => hpost c (List.mem_reverse.mp hc))]
    have : (a :: s').reverse.dropWhile isPyWs = (a :: s').reverse :=
      noWsHead_dropWhile _ hs.2
    rw [this, List.reverse_reverse]

theorem pyStrip_cons_ws (w : Char) (s : List Char) (h : isPyWs w = true) :
    pyStrip (w :: s) = pyStrip s := by
  simp [pyStrip, List.dropWhile, h]

theorem wsTrimmed_of_forall (s : List Char) (h : ∀ c ∈ s, isPyWs c = false) :
    wsTrimmed s = true := by
  have h1 : noWsHead s = true := by
    cases s with
    | nil => rfl
    | cons c t => simp [noWsHead, h c (List.mem_cons_self c t)]
  have h2 : noWsLast s = true := by
    unfold noWsLast
    cases hs : s.reverse with
    | nil => rfl
    | cons c t =>
      have : c ∈ s := by
        have : c ∈ s.reverse := hs ▸ List.mem_cons_self c t
        exact List.mem_reverse.mp this
      simp [noWsHead, h c this]
  simp [wsTrimmed, h1, h2]

theorem noWsHead_append (s t : List Char) (h : s ≠ []) :
    noWsHead (s ++ t) = noWsHead s := by
  cases s with
  | nil => exact absurd rfl h
  | cons c s' => rfl

theorem noWsLast_append (s t : List Char) (h : t ≠ []) :
    noWsLast (s ++ t) = noWsLast t := by
  unfold noWsLast
  rw [List.reverse_append]
  exact noWsHead_append t.reverse s.reverse (by simpa using h)

theorem wsTrimmed_append (s t : List Char) (hs : s ≠ []) (ht : t ≠ [])
    (h1 : noWsHead s = true) (h2 : noWsLast t = true) :
    wsTrimmed (s ++ t) = true := by
  simp [wsTrimmed, noWsHead_append s t hs, noWsLast_append s t ht, h1, h2]

theorem noWsLast_of_forall (s : List Char) (h : ∀ c ∈ s, isPyWs c = false) :
    noWsLast s = true := by
  have := wsTrimmed_of_forall s h
  simp only [wsTrimmed, Bool.and_eq_true] at this
  exact this.2

theorem natRepr_no_ws (n : Nat) : ∀ c ∈ natRepr n, isPyWs c = false :=
  fun c hc => isPyDigit_not_ws c (natRepr_digits n c hc)

theorem natRepr_no_bar (n : Nat) : '|' ∉ natRepr n := by
  intro h
  exact (isPyDigit_ne '|' (natRepr_digits n '|' h)).1 rfl

theorem natRepr_no_eq (n : Nat) : '=' ∉ natRepr n := by
  intro h
  exact (isPyDigit_ne '=' (natRepr_digits n '=' h)).2.1 rfl

theorem natRepr_no_comma (n : Nat) : ',' ∉ natRepr n := by
  intro h
  exact (isPyDigit_ne ',' (natRepr_digits n ',' h)).2.2 rfl

theorem natRepr_trimmed (n : Nat) : wsTrimmed (natRepr n) = true :=
  wsTrimmed_of_forall _ (natRepr_no_ws n)

/-! ## Channel sidecar codec

`parse_topic` is bot.py:314-323: split the channel topic on `"|"`, strip each
segment, and for each segment containing `"="` bind the stripped key to the
stripped value (later segments overwrite earlier ones, as in a Python dict).
`encode_topic` is the encoding direction described by the spec (section 4.1)
and used literally by the source when it builds topics, e.g. bot.py:633
(`"ticket_type=... | user_id=... | claimed_by=none"`) and bot.py:579
(`" | ".join(...)` in `claim_ticket`): `key=value` pairs joined with `" | "`.
-/

def parse_topic (topic : Option (List Char)) : List (List Char × List Char) :=
  match topic with
  | none => []
  | some t =>
    if t.isEmpty then []
    else
      ((splitCh '|' t).map pyStrip).foldl
        (fun data p =>
          match splitEq p with
          | some kv => dictSet data (pyStrip kv.1) (pyStrip kv.2)
          | none => data) []

def encode_topic (m : List (List Char × List Char)) : List Char :=
  pyJoin [' ', '|', ' '] (m.map (fun kv => kv.1 ++ '=' :: kv.2))

/-- Keys and values the codec round-trips: free of the delimiter bar and of
`'='`, and carrying no leading or trailing strippable whitespace. -/
def goodField (s : List Char) : Prop :=
  '|' ∉ s ∧ '=' ∉ s ∧ wsTrimmed s = true

instance (s : List Char) : Decidable (goodField s) := by
  unfold goodField
  infer_instance

theorem wsTrimmed_field_pair (k v : List Char)
    (hk : wsTrimmed k = true) (hv : wsTrimmed v = true) :
    wsTrimmed (k ++ '=' :: v) = true := by
  have hk' : noWsHead k = true ∧ noWsLast k = true := by
    have := hk; simp only [wsTrimmed, Bool.and_eq_true] at this; exact this
  have hv' : noWsHead v = true ∧ noWsLast v = true := by
    have := hv; simp only [wsTrimmed, Bool.and_eq_true] at this; exact this
  have hhead : noWsHead (k ++ '=' :: v) = true := by
    cases k with
    | nil => simp [noWsHead, isPyWs]
    | cons c t =>
      simp only [List.cons_append]
      have := hk'.1
      simpa [noWsHead] using this
  have hlast : noWsLast (k ++ '=' :: v) = true := by
    cases v with
    | nil =>
      have : k ++ ['='] = k ++ '=' :: ([] : List Char) := rfl
      rw [← this, noWsLast_append k ['='] (by simp)]
      decide
    | cons c t =>
      have hcv : (c :: t) ≠ ([] : List Char) := by simp
      have : k ++ '=' :: c :: t = (k ++ ['=']) ++ c :: t := by simp
      rw [this, noWsLast_append (k ++ ['=']) (c :: t) hcv]
      exact hv'.2
  simp [wsTrimmed, hhead, hlast]

/-- Splitting `" | ".join(parts)` on `'|'` and stripping each segment recovers
the parts, provided no part contains a bar or whitespace at either end. -/
theorem splitJoin_strip (parts : List (List Char)) (hne : parts ≠ [])
    (h : ∀ p ∈ parts, '|' ∉ p ∧ wsTrimmed p = true) :
    (splitCh '|' (pyJoin [' ', '|', ' '] parts)).map pyStrip = parts := by
  induction parts with
  | nil => exact absurd rfl hne
  | cons p rest ih =>
    cases rest with
    | nil =>
      have hp := h p (List.mem_cons_self p [])
      simp only [pyJoin]
      rw [splitCh_no_sep '|' p hp.1]
      simp [pyStrip_of_trimmed p hp.2]
    | cons q rest' =>
      have hp := h p (List.mem_cons_self p _)
      have hshape : p ++ [' ', '|', ' '] ++ pyJoin [' ', '|', ' '] (q :: rest')
          = (p ++ [' ']) ++ '|' :: (' ' :: pyJoin [' ', '|', ' '] (q :: rest')) := by
        simp
      have hnobar : '|' ∉ p ++ [' '] := by
        intro hm
        rcases List.mem_append.mp hm with h1 | h2
        · exact hp.1 h1
        · simp at h2
      simp only [pyJoin]
      rw [hshape, splitCh_append_sep '|' (p ++ [' ']) _ hnobar]
      obtain ⟨w, ws, hw, hw2⟩ :=
        splitCh_cons_ne '|' ' ' (pyJoin [' ', '|', ' '] (q :: rest')) (by decide)
      rw [hw2]
      have ihq := ih (by simp) (fun r hr => h r (List.mem_cons_of_mem p hr))
      rw [hw] at ihq
      simp only [List.map_cons] at ihq ⊢
      have hstr1 : pyStrip (p ++ [' ']) = p := by
        have := pyStrip_sandwich [] p [' '] (by simp) (by intro c hc; simp at hc; subst hc; decide) hp.2
        simpa using this
      have hstr2 : pyStrip (' ' :: w) = pyStrip w := pyStrip_cons_ws ' ' w (by decide)
      rw [hstr1, hstr2]
      exact congrArg (fun l => p :: l) ihq

theorem dictSet_fresh (m : List (List Char × List Char)) (k v : List Char)
    (h : ∀ kv ∈ m, kv.1 ≠ k) :
    dictSet m k v = m ++ [(k, v)] := by
  induction m with
  | nil => rfl
  | cons kv rest ih =>
    have hkv : kv.1 ≠ k := h kv (List.mem_cons_self kv rest)
    simp only [dictSet, if_neg hkv]
    rw [ih (fun kv2 h2 => h kv2 (List.mem_cons_of_mem kv h2))]
    rfl

/-- Folding the `parse_topic` body over canonical `key=value` segments builds
exactly the association list, when keys are distinct and fields well-formed. -/
theorem parse_topic_fold (m : List (List Char × List Char)) :
    (∀ kv ∈ m, goodField kv.1 ∧ goodField kv.2) →
    (m.map Prod.fst).Nodup →
    ∀ acc : List (List Char × List Char),
      (∀ kv ∈ m, ∀ kv2 ∈ acc, kv2.1 ≠ kv.1) →
      (m.map (fun kv => kv.1 ++ '=' :: kv.2)).foldl
        (fun data p =>
          match splitEq p with
          | some kv => dictSet data (pyStrip kv.1) (pyStrip kv.2)
          | none => data) acc = acc ++ m := by
  induction m with
  | nil =>
    intro _ _ acc _
    simp
  | cons kv rest ih =>
    intro hgood hnd acc hdisj
    obtain ⟨hk, hv⟩ := hgood kv (List.mem_cons_self kv rest)
    simp only [List.map_cons, List.foldl_cons]
    rw [splitEq_append kv.1 kv.2 hk.2.1]
    simp only
    rw [pyStrip_of_trimmed kv.1 hk.2.2, pyStrip_of_trimmed kv.2 hv.2.2]
    rw [dictSet_fresh acc kv.1 kv.2 (fun kv2 h2 => hdisj kv (List.mem_cons_self kv rest) kv2 h2)]
    have hnd' : (rest.map Prod.fst).Nodup := by
      simp only [List.map_cons, List.nodup_cons] at hnd
      exact hnd.2
    have hk_not_rest : ∀ kv2 ∈ rest, kv2.1 ≠ kv.1 := by
      intro kv2 h2 heq
      simp only [List.map_cons, List.nodup_cons] at hnd
      exact hnd.1 (heq ▸ List.mem_map_of_mem Prod.fst h2)
    have := ih (fun kv2 h2 => hgood kv2 (List.mem_cons_of_mem kv h2)) hnd'
      (acc ++ [(kv.1, kv.2)])
      (by
        intro kv2 h2 kv3 h3
        rcases List.mem_append.mp h3 with h3a | h3b
        · exact hdisj kv2 (List.mem_cons_of_mem kv h2) kv3 h3a
        · simp only [List.mem_singleton] at h3b
          subst h3b
          exact Ne.symm (hk_not_rest kv2 h2))
    rw [this]
    simp

/-- Round trip of the channel codec on well-formed mappings. -/
theorem parse_topic_encode (m : List (List Char × List Char))
    (hnd : (m.map Prod.fst).Nodup)
    (hgood : ∀ kv ∈ m, goodField kv.1 ∧ goodField kv.2) :
    parse_topic (some (encode_topic m)) = m := by
  cases m with
  | nil => rfl
  | cons kv rest =>
    have hparts : ∀ p ∈ (kv :: rest).map (fun kv => kv.1 ++ '=' :: kv.2),
        '|' ∉ p ∧ wsTrimmed p = true := by
      intro p hp
      obtain ⟨kv2, hkv2, rfl⟩ := List.mem_map.mp hp
      obtain ⟨hk, hv⟩ := hgood kv2 hkv2
      constructor
      · intro hm
        rcases List.mem_append.mp hm with h1 | h2
        · exact hk.1 h1
        · rcases List.mem_cons.mp h2 with h3 | h4
          · cases h3
          · exact hv.1 h4
      · exact wsTrimmed_field_pair kv2.1 kv2.2 hk.2.2 hv.2.2
    have henc_ne : encode_topic (kv :: rest) ≠ [] := by
      simp only [encode_topic, List.map_cons]
      cases rest with
      | nil => simp [pyJoin]
      | cons q rest' => simp [pyJoin]
    simp only [parse_topic, List.isEmpty_eq_true, if_neg henc_ne]
    rw [encode_topic, splitJoin_strip _ (by simp) hparts]
    have := parse_topic_fold (kv :: rest) hgood hnd [] (by simp)
    simpa using this

/-! ## Message sidecar codec (market listings)

`market_meta` is bot.py:678-680, `parse_market_meta` is bot.py:683-700.  The
footer of the listing embed carries `seller_id=..|region=..|claimed_by=..`
with the single-character delimiter `"|"`.  `claimed_by=None` is encoded as
`0` by the source; the model therefore takes a `Nat` directly.
-/

structure Embed where
  fields : List (List Char × List Char)
  footer : Option (List Char)
deriving DecidableEq

structure MarketMeta where
  seller_id : Nat
  region : Option (List Char)
  claimed_by : Nat
deriving DecidableEq

def market_meta (seller_id : Nat) (region_key : List Char) (claimed_by : Nat) : List Char :=
  "seller_id=".toList ++ natRepr seller_id ++ "|region=".toList ++ region_key
    ++ "|claimed_by=".toList ++ natRepr claimed_by

def parse_market_meta (emb : Embed) : MarketMeta :=
  match emb.footer with
  | none => ⟨0, none, 0⟩
  | some txt =>
    if txt.isEmpty then ⟨0, none, 0⟩
    else
      ((splitCh '|' txt).map pyStrip).foldl
        (fun out p =>
          match splitEq p with
          | none => out
          | some kv =>
            let k := pyStrip kv.1
            let v := pyStrip kv.2
            if k = "seller_id".toList then
              { out with seller_id := if v ≠ [] ∧ v.all isPyDigit then digitsToNat v else 0 }
            else if k = "region".toList then
              { out with region := some v }
            else if k = "claimed_by".toList then
              { out with claimed_by := if v ≠ [] ∧ v.all isPyDigit then digitsToNat v else 0 }
            else out) ⟨0, none, 0⟩

theorem natRepr_all_digits (n : Nat) : (natRepr n).all isPyDigit = true := by
  rw [List.all_eq_true]
  exact natRepr_digits n

theorem wsTrimmed_label_digits (lbl : List Char) (hlbl : lbl ≠ [])
    (hhd : noWsHead lbl = true) (n : Nat) :
    wsTrimmed (lbl ++ natRepr n) = true :=
  wsTrimmed_append lbl (natRepr n) hlbl (natRepr_ne_nil n) hhd
    (noWsLast_of_forall _ (natRepr_no_ws n))

/-- Decoding the encoded market sidecar recovers the triple, for any region
key free of the delimiter bar and of end whitespace. -/
theorem parse_market_meta_market_meta (fields : List (List Char × List Char))
    (s c : Nat) (r : List Char) (hbar : '|' ∉ r) (htrim : wsTrimmed r = true) :
    parse_market_meta ⟨fields, some (market_meta s r c)⟩ = ⟨s, some r, c⟩ := by
  have hshape : market_meta s r c
      = ("seller_id=".toList ++ natRepr s) ++ '|' ::
        (("region=".toList ++ r) ++ '|' :: ("claimed_by=".toList ++ natRepr c)) := by
    simp [market_meta]
  have hnb1 : '|' ∉ "seller_id=".toList ++ natRepr s := by
    intro hm
    rcases List.mem_append.mp hm with h1 | h2
    · revert h1; decide
    · exact natRepr_no_bar s h2
  have hnb2 : '|' ∉ "region=".toList ++ r := by
    intro hm
    rcases List.mem_append.mp hm with h1 | h2
    · revert h1; decide
    · exact hbar h2
  have hnb3 : '|' ∉ "claimed_by=".toList ++ natRepr c := by
    intro hm
    rcases List.mem_append.mp hm with h1 | h2
    · revert h1; decide
    · exact natRepr_no_bar c h2
  have hsplit : splitCh '|' (market_meta s r c)
      = [("seller_id=".toList ++ natRepr s), ("region=".toList ++ r),
         ("claimed_by=".toList ++ natRepr c)] := by
    rw [hshape, splitCh_append_sep '|' _ _ hnb1, splitCh_append_sep '|' _ _ hnb2,
      splitCh_no_sep '|' _ hnb3]
  have hne : market_meta s r c ≠ [] := by
    rw [hshape]
    simp
  have htr1 : pyStrip ("seller_id=".toList ++ natRepr s) = "seller_id=".toList ++ natRepr s :=
    pyStrip_of_trimmed _ (wsTrimmed_label_digits _ (by decide) (by decide) s)
  have htr2 : pyStrip ("region=".toList ++ r) = "region=".toList ++ r := by
    cases hr : r with
    | nil =>
      subst hr
      simp only [List.append_nil]
      exact pyStrip_of_trimmed _ (by decide)
    | cons a r' =>
      subst hr
      refine pyStrip_of_trimmed _ (wsTrimmed_append _ _ (by decide) (by simp) (by decide) ?_)
      simp only [wsTrimmed, Bool.and_eq_true] at htrim
      exact htrim.2
  have htr3 : pyStrip ("claimed_by=".toList ++ natRepr c) = "claimed_by=".toList ++ natRepr c :=
    pyStrip_of_trimmed _ (wsTrimmed_label_digits _ (by decide) (by decide) c)
  have hsell : "seller_id=".toList ++ natRepr s = "seller_id".toList ++ '=' :: natRepr s := by
    have h0 : "seller_id=".toList = "seller_id".toList ++ ['='] := by decide
    rw [h0, List.append_assoc]
    rfl
  have hreg : "region=".toList ++ r = "region".toList ++ '=' :: r := by
    have h0 : "region=".toList = "region".toList ++ ['='] := by decide
    rw [h0, List.append_assoc]
    rfl
  have hclm : "claimed_by=".toList ++ natRepr c = "claimed_by".toList ++ '=' :: natRepr c := by
    have h0 : "claimed_by=".toList = "claimed_by".toList ++ ['='] := by decide
    rw [h0, List.append_assoc]
    rfl
  simp only [parse_market_meta, List.isEmpty_eq_true, if_neg hne, hsplit,
    List.map_cons, List.map_nil, htr1, htr2, htr3, List.foldl_cons, List.foldl_nil]
  rw [hsell, splitEq_append _ _ (by decide), hreg, splitEq_append _ _ (by decide),
    hclm, splitEq_append _ _ (by decide)]
  simp only [pyStrip_of_trimmed _ (wsTrimmed_of_forall _ (natRepr_no_ws s)),
    pyStrip_of_trimmed _ (wsTrimmed_of_forall _ (natRepr_no_ws c)),
    pyStrip_of_trimmed r htrim]
  have hps : pyStrip "seller_id".toList = "seller_id".toList := by decide
  have hpr : pyStrip "region".toList = "region".toList := by decide
  have hpc : pyStrip "claimed_by".toList = "claimed_by".toList := by decide
  rw [hps, hpr, hpc]
  simp [natRepr_ne_nil, natRepr_all_digits, digitsToNat_natRepr]

/-! ## Role-ID serialization and the durable store

`serialize_role_ids` / `deserialize_role_ids` are bot.py:351-361 (leading
underscores dropped); `save_mute_roles_backup` / `pop_mute_roles_backup` are
bot.py:364-392.  The SQLite tables `mutes` and `mute_role_backup`
(PRIMARY KEY (guild_id, user_id), bot.py:112-137) are association lists;
`INSERT OR REPLACE` removes the old row and inserts the new one, and row
order never matters to the embedded operations.
-/

def serialize_role_ids (role_ids : List Nat) : List Char :=
  pyJoin [','] (role_ids.map natRepr)

def deserialize_role_ids (s : List Char) : List Nat :=
  ((splitCh ',' s).map pyStrip).filterMap
    (fun p => if p ≠ [] ∧ p.all isPyDigit then some (digitsToNat p) else none)

theorem deserialize_map_natRepr (ids : List Nat) :
    (ids.map (fun k => pyStrip (natRepr k))).filterMap
      (fun p => if p ≠ [] ∧ p.all isPyDigit then some (digitsToNat p) else none) = ids := by
  induction ids with
  | nil => rfl
  | cons k ks ih =>
    simp only [List.map_cons, List.filterMap_cons]
    rw [pyStrip_of_trimmed _ (natRepr_trimmed k)]
    rw [if_pos ⟨natRepr_ne_nil k, natRepr_all_digits k⟩]
    rw [digitsToNat_natRepr k, ih]

theorem deserialize_serialize (role_ids : List Nat) :
    deserialize_role_ids (serialize_role_ids role_ids) = role_ids := by
  have main : ∀ ids : List Nat, ids ≠ [] →
      splitCh ',' (pyJoin [','] (ids.map natRepr)) = ids.map natRepr := by
    intro ids
    induction ids with
    | nil => intro h; exact absurd rfl h
    | cons n rest ih =>
      intro _
      cases rest with
      | nil =>
        simp only [List.map_cons, List.map_nil, pyJoin]
        exact splitCh_no_sep ',' (natRepr n) (natRepr_no_comma n)
      | cons m rest' =>
        simp only [List.map_cons, pyJoin]
        have hshape : natRepr n ++ [','] ++ pyJoin [','] (natRepr m :: rest'.map natRepr)
            = natRepr n ++ ',' :: pyJoin [','] (natRepr m :: rest'.map natRepr) := by
          simp
        rw [hshape, splitCh_append_sep ',' _ _ (natRepr_no_comma n)]
        have := ih (by simp)
        simp only [List.map_cons] at this
        rw [this]
  cases role_ids with
  | nil => rfl
  | cons n rest =>
    simp only [deserialize_role_ids, serialize_role_ids]
    rw [main (n :: rest) (by simp)]
    rw [List.map_map]
    exact deserialize_map_natRepr (n :: rest)

/-- The two core tables, keyed by (guild_id, user_id). -/
structure MuteState where
  mutes : List ((Nat × Nat) × Option Int)
  backups : List ((Nat × Nat) × List Char)
deriving DecidableEq

/-- SQLite `DELETE ... WHERE guild_id=? AND user_id=?`. -/
def tblDelete {V : Type} (t : List ((Nat × Nat) × V)) (k : Nat × Nat) : List ((Nat × Nat) × V) :=
  t.filter (fun kv => kv.1 != k)

/-- SQLite `INSERT OR REPLACE`: the old row (if any) is removed, the new row
inserted. -/
def tblUpsert {V : Type} (t : List ((Nat × Nat) × V)) (k : Nat × Nat) (v : V) :
    List ((Nat × Nat) × V) :=
  tblDelete t k ++ [(k, v)]

/-- SQLite `SELECT ... WHERE guild_id=? AND user_id=?` (at most one row). -/
def tblLookup {V : Type} (t : List ((Nat × Nat) × V)) (k : Nat × Nat) : Option V :=
  (t.find? (fun kv => kv.1 == k)).map (·.2)

def save_mute_roles_backup (st : MuteState) (guild_id user_id : Nat) (role_ids : List Nat) :
    MuteState :=
  { st with backups := tblUpsert st.backups (guild_id, user_id) (serialize_role_ids role_ids) }

def pop_mute_roles_backup (st : MuteState) (guild_id user_id : Nat) :
    List Nat × MuteState :=
  (match tblLookup st.backups (guild_id, user_id) with
   | none => []
   | some s => deserialize_role_ids s,
   { st with backups := tblDelete st.backups (guild_id, user_id) })

theorem tblLookup_upsert {V : Type} (t : List ((Nat × Nat) × V)) (k : Nat × Nat) (v : V) :
    tblLookup (tblUpsert t k v) k = some v := by
  simp only [tblUpsert, tblDelete, tblLookup]
  rw [List.find?_append]
  have hnone : (t.filter (fun kv => kv.1 != k)).find? (fun kv => kv.1 == k) = none := by
    rw [List.find?_eq_none]
    intro kv hkv
    have := List.of_mem_filter hkv
    simpa using this
  rw [hnone]
  simp

theorem pop_after_save (st : MuteState) (guild_id user_id : Nat) (role_ids : List Nat) :
    (pop_mute_roles_backup (save_mute_roles_backup st guild_id user_id role_ids)
      guild_id user_id).1 = role_ids := by
  simp only [pop_mute_roles_backup, save_mute_roles_backup]
  rw [tblLookup_upsert]
  exact deserialize_serialize role_ids

/-! ## Guild and member model for the mute lifecycle

The guild environment supplies what the Discord API supplies to the source:
the guild role list (`guild.get_role`, lookups by id), the position of the
bot's top role (used by `can_bot_manage_role`, bot.py:395-401), the role
named "Muted" (`get_or_create_muted_role`, bot.py:426-430 — the model assumes
the role exists, which is what that helper establishes; its creation path and
the channel-overwrite refresh `apply_mute_overwrites` touch no state the
embedded operations read), the member list (`guild.get_member`), and two
failure flags injecting the `discord.Forbidden`/`Exception` outcomes of
`member.remove_roles` / `member.add_roles` remote calls.
-/

structure Role where
  id : Nat
  pos : Int
  isDefault : Bool
  managed : Bool
deriving DecidableEq

structure Member where
  id : Nat
  roles : List Role
  isAdmin : Bool
deriving DecidableEq

structure GuildEnv where
  roles : List Role
  botTopPos : Int
  mutedRole : Role
  members : List Member
  removeRolesFails : Bool
  addRolesFails : Bool
deriving DecidableEq

/-- bot.py `guild.get_role(rid)`. -/
def get_role (g : GuildEnv) (rid : Nat) : Option Role :=
  g.roles.find? (fun r => r.id == rid)

/-- bot.py:395-401 `can_bot_manage_role`. -/
def can_bot_manage_role (g : GuildEnv) (r : Role) : Bool :=
  !r.isDefault && !r.managed && decide (g.botTopPos > r.pos)

inductive MuteOutcome
  | adminRefused
  | alreadyMuted
  | forbiddenAdd
  | muted
deriving DecidableEq

/-- bot.py:1317-1428 `/mute` (state-relevant core).  Steps in source order:
admin guard; already-muted guard (`muted_role in user.roles`); collect backup
ids over the member's roles skipping `@everyone` and the Muted role itself;
partition off the manageable ones; persist the backup; batched
`remove_roles` whose `Forbidden` is swallowed (roles stay on failure);
`add_roles(muted_role)` whose `Forbidden` aborts with no Mute Record written;
compute `unmute_at` (`now + minuten`, only for positive `minuten`); finally
`INSERT OR REPLACE` into `mutes`.  The DM and log messages carry no state;
the guild-context and `UNMUTE_CHANNEL_ID` configuration guards and the
overwrite refresh abort before any modelled effect and are elided. -/
def mute (g : GuildEnv) (st : MuteState) (guild_id : Nat) (user : Member)
    (minuten : Option Int) (now : Int) : MuteOutcome × MuteState × Member :=
  if user.isAdmin then (.adminRefused, st, user)
  else if user.roles.any (fun r => r.id == g.mutedRole.id) then (.alreadyMuted, st, user)
  else
    let rolesToRemove := user.roles.filter
      (fun r => !r.isDefault && r.id != g.mutedRole.id && can_bot_manage_role g r)
    let backupIds := (user.roles.filter
      (fun r => !r.isDefault && r.id != g.mutedRole.id)).map (·.id)
    let st1 := save_mute_roles_backup st guild_id user.id backupIds
    let user1 := if g.removeRolesFails then user
      else { user with
        roles := user.roles.filter (fun r => !(rolesToRemove.any (fun q => q.id == r.id))) }
    if g.addRolesFails then (.forbiddenAdd, st1, user1)
    else
      let user2 := { user1 with roles := user1.roles ++ [g.mutedRole] }
      let unmuteAt : Option Int :=
        match minuten with
        | some m => if m > 0 then some (now + m) else none
        | none => none
      (.muted, { st1 with mutes := tblUpsert st1.mutes (guild_id, user.id) unmuteAt }, user2)

inductive UnmuteOutcome
  | notMuted
  | forbiddenRemove
  | unmuted
deriving DecidableEq

/-- bot.py:1431-1504 `/unmute`.  Steps in source order: not-muted guard;
`remove_roles(muted_role)` — `Forbidden` aborts with no further effect; pop
the backup (read + delete); filter restorable roles (missing, managed,
default, or not manageable are skipped); batched `add_roles` whose
`Forbidden` is swallowed; `DELETE FROM mutes`. -/
def unmute (g : GuildEnv) (st : MuteState) (guild_id : Nat) (user : Member) :
    UnmuteOutcome × MuteState × Member :=
  if !(user.roles.any (fun r => r.id == g.mutedRole.id)) then (.notMuted, st, user)
  else if g.removeRolesFails then (.forbiddenRemove, st, user)
  else
    let user1 := { user with roles := user.roles.filter (fun r => r.id != g.mutedRole.id) }
    let popped := pop_mute_roles_backup st guild_id user.id
    let toAdd := popped.1.filterMap (fun rid =>
      match get_role g rid with
      | none => none
      | some role =>
        if role.managed || role.isDefault then none
        else if !(can_bot_manage_role g role) then none
        else some role)
    let user2 := if toAdd ≠ [] ∧ g.addRolesFails then user1
      else { user1 with roles := user1.roles ++ toAdd }
    let st2 := { popped.2 with mutes := tblDelete popped.2.mutes (guild_id, user.id) }
    (.unmuted, st2, user2)

/-- bot.py:1736-1798, the body of the expiry sweep for one expired row whose
guild resolved: look up the member; when the member exists and holds the
Muted role, remove it (`Exception` → `did_unmute = False`), and only on
success pop the backup and re-grant the restorable subset (same filter as
`/unmute`); in every case — member missing, role absent, or revoke failed —
the `mutes` row is deleted (bot.py:1778-1784). -/
def autoProcess (g : GuildEnv) (st : MuteState) (guild_id user_id : Nat) :
    MuteState × Option Member :=
  match g.members.find? (fun m => m.id == user_id) with
  | none => ({ st with mutes := tblDelete st.mutes (guild_id, user_id) }, none)
  | some m =>
    if m.roles.any (fun r => r.id == g.mutedRole.id) then
      if g.removeRolesFails then
        ({ st with mutes := tblDelete st.mutes (guild_id, user_id) }, some m)
      else
        let m1 := { m with roles := m.roles.filter (fun r => r.id != g.mutedRole.id) }
        let popped := pop_mute_roles_backup st guild_id user_id
        let toAdd := popped.1.filterMap (fun rid =>
          match get_role g rid with
          | none => none
          | some role =>
            if role.managed || role.isDefault then none
            else if !(can_bot_manage_role g role) then none
            else some role)
        let m2 := if toAdd ≠ [] ∧ g.addRolesFails then m1
          else { m1 with roles := m1.roles ++ toAdd }
        ({ popped.2 with mutes := tblDelete popped.2.mutes (guild_id, user_id) }, some m2)
    else ({ st with mutes := tblDelete st.mutes (guild_id, user_id) }, some m)

structure BotEnv where
  guilds : List (Nat × GuildEnv)
deriving DecidableEq

/-- bot.py `bot.get_guild(gid)`. -/
def get_guild (env : BotEnv) (guild_id : Nat) : Option GuildEnv :=
  (env.guilds.find? (fun p => p.1 == guild_id)).map (·.2)

/-- The body of the sweep loop for one row `(guild_id, user_id, unmute_at)`:
skip rows not yet expired; skip — leaving the row in place — when the guild
does not resolve (bot.py:1737-1738); otherwise run the per-row body. -/
def auto_unmute_step (env : BotEnv) (now : Int) (acc : MuteState)
    (row : Nat × Nat × Int) : MuteState :=
  if now ≥ row.2.2 then
    match get_guild env row.1 with
    | none => acc
    | some g => (autoProcess g acc row.1 row.2.1).1
  else acc

/-- bot.py:1721-1798 `auto_unmute_loop`, one sweep at time `now`: read the
rows with a non-NULL `unmute_at` once, then process each in turn.
Timestamps written by `mute` always parse, so the `fromisoformat` failure
branch (bot.py:1731-1734) is vacuous here. -/
def auto_unmute_loop (env : BotEnv) (st : MuteState) (now : Int) : MuteState :=
  (st.mutes.filterMap (fun kv => kv.2.map (fun t => (kv.1.1, kv.1.2, t)))).foldl
    (auto_unmute_step env now) st

/-! ## Ticket lifecycle

An interacting user is an `Actor`: id, the role ids they hold (roles a member
holds exist in the guild, so `guild.get_role` on them succeeds and the
`has_role` / staff checks reduce to membership), and the administrator bit.
-/

structure Actor where
  id : Nat
  roleIds : List Nat
  isAdmin : Bool
deriving DecidableEq

/-- bot.py:223-227 `has_role` (role id `0` models an unset env variable,
falsy in Python). -/
def has_role (a : Actor) (role_id : Nat) : Bool :=
  role_id != 0 && a.roleIds.contains role_id

/-- bot.py:230-239 `is_staff`, with the global `TICKET_STAFF_ROLE_IDS`
passed explicitly. -/
def is_staff (a : Actor) (staff_role_ids : List Nat) : Bool :=
  a.isAdmin || staff_role_ids.any (fun rid => a.roleIds.contains rid)

/-- bot.py:242-251 `is_market_staff`. -/
def is_market_staff (a : Actor) (staff_role_ids : List Nat) : Bool :=
  a.isAdmin || staff_role_ids.any (fun rid => a.roleIds.contains rid)

structure Chan where
  name : List Char
  topic : Option (List Char)
deriving DecidableEq

/-- The substring the duplicate-open guard scans for (bot.py:616
`f"user_id={member.id}" in ch.topic`). -/
def user_needle (member_id : Nat) : List Char :=
  "user_id=".toList ++ natRepr member_id

/-- The initial sidecar written at creation (bot.py:633). -/
def ticket_topic (kind : List Char) (member_id : Nat) : List Char :=
  "ticket_type=".toList ++ kind ++ " | user_id=".toList ++ natRepr member_id
    ++ " | claimed_by=none".toList

/-- bot.py:414-419 `next_ticket_number`: smallest `n ≥ 1` with `ticket-n`
unused; the `while` loop is run on fuel `|names| + 1`, which always suffices
because at most `|names|` candidates can be taken. -/
def next_ticket_number_aux (names : List (List Char)) : Nat → Nat → Nat
  | n, 0 => n
  | n, fuel + 1 =>
    if names.contains ("ticket-".toList ++ natRepr n)
    then next_ticket_number_aux names (n + 1) fuel
    else n

def next_ticket_number (names : List (List Char)) : Nat :=
  next_ticket_number_aux names 1 (names.length + 1)

inductive TicketCreateResult
  | alreadyHas (ch : Chan)
  | created (ch : Chan)
deriving DecidableEq

/-- bot.py:602-654 `TicketOpenView._create_ticket` (state-relevant core,
assuming the ticket category is configured and found): scan the category's
channels for the first one whose (truthy) topic contains the substring
`user_id=<member>` and reject with it; otherwise create `ticket-<n>` with the
canonical sidecar topic.  Channel permission overwrites, the status card and
log posts carry no decoded state. -/
def create_ticket (categoryChans : List Chan) (guildChanNames : List (List Char))
    (member_id : Nat) (kind : List Char) : TicketCreateResult :=
  match categoryChans.find? (fun ch =>
    match ch.topic with
    | some tp => !tp.isEmpty && listContains (user_needle member_id) tp
    | none => false) with
  | some ch => .alreadyHas ch
  | none =>
    .created ⟨"ticket-".toList ++ natRepr (next_ticket_number guildChanNames),
      some (ticket_topic kind member_id)⟩

inductive TOutcome
  | notStaff
  | alreadyClaimed
  | claimedOk
deriving DecidableEq

/-- The topic rewrite of bot.py:570-581: when the substring `claimed_by=` is
present, split on `"|"`, strip each part, replace the parts that start with
`claimed_by=` by `claimed_by=<actor>` and re-join with `" | "`; otherwise
append `claimed_by=<actor>` (after `" | "` when the topic is nonempty). -/
def ticket_claim_rewrite (topic : List Char) (actor_id : Nat) : List Char :=
  if listContains ("claimed_by=".toList) topic then
    pyJoin [' ', '|', ' ']
      (((splitCh '|' topic).map pyStrip).map (fun p =>
        if ("claimed_by=".toList).isPrefixOf p
        then "claimed_by=".toList ++ natRepr actor_id
        else p))
  else
    (if topic.isEmpty then [] else topic ++ [' ', '|', ' '])
      ++ "claimed_by=".toList ++ natRepr actor_id

/-- bot.py:555-595 `TicketManageView.claim_ticket`: staff check; re-read and
decode the topic; reject when the decoded `claimed_by` is truthy and not
`"none"` (no mutation); otherwise rewrite the topic with the actor as
claimant.  The guild/channel-validity guards (which abort before any effect)
and the cosmetic status-card edit (`_update_status_embed`) touch no sidecar
state and are elided. -/
def claim_ticket (staff_role_ids : List Nat) (actor : Actor) (topic : Option (List Char)) :
    TOutcome × Option (List Char) :=
  if !(is_staff actor staff_role_ids) then (.notStaff, topic)
  else
    let topicData := parse_topic topic
    match dictGet topicData ("claimed_by".toList) with
    | some v =>
      if v ≠ [] ∧ v ≠ "none".toList then (.alreadyClaimed, topic)
      else (.claimedOk, some (ticket_claim_rewrite (topic.getD []) actor.id))
    | none => (.claimedOk, some (ticket_claim_rewrite (topic.getD []) actor.id))

/-! ## Market listing lifecycle

A listing message: its embed list and whether the attached interactive view
was replaced by the all-disabled one.  `msg.edit(embed=e)` replaces the embed
list by `[e]`; `msg.edit(embed=e, view=MarketListingView(disabled=True))`
additionally disables the affordances (bot.py:866).  The environment function
models `MARKET_CFG` (bot.py:79-96): region key to configuration, `none` for
an unknown region (a `KeyError` in the source, aborting the handler with no
state change).  Display texts are stand-ins; no embedded property reads them.
-/

structure MarketMsg where
  embeds : List Embed
  viewDisabled : Bool
deriving DecidableEq

structure MarketCfg where
  allowed_role_id : Nat
  staff_role_ids : List Nat
deriving DecidableEq

def statusClaimedText (buyer_id : Nat) : List Char :=
  "claimed by ".toList ++ natRepr buyer_id

def statusClosedText : List Char := "Closed".toList

/-- bot.py:507-520-style status-field update used by `claim`/`close`
(bot.py:796-803, 855-862): replace the value of the first field whose
lowercased name is `status`, else append a `Status` field. -/
def setFieldStatus : List (List Char × List Char) → List Char → List (List Char × List Char)
  | [], text => [("Status".toList, text)]
  | nv :: rest, text =>
    if nv.1.map pyLowerChar = "status".toList then ("Status".toList, text) :: rest
    else nv :: setFieldStatus rest text

def setStatusField (emb : Embed) (text : List Char) : Embed :=
  { emb with fields := setFieldStatus emb.fields text }

inductive MOutcome
  | noListing
  | metaMissing
  | cfgError
  | isSeller
  | noRole
  | alreadyClaimed
  | claimedOk
  | contacted
  | notAllowedClose
  | closedOk
deriving DecidableEq

/-- bot.py:711-757 `MarketListingView.contact`: decode the footer of the
first embed; reject when region or seller is missing; reject the seller
(`isSeller`); otherwise post the public contact ping (`contacted`) — the
message is never edited. -/
def market_contact (env : List Char → Option MarketCfg) (buyer : Actor) (msg : MarketMsg) :
    MOutcome × MarketMsg :=
  match msg.embeds.head? with
  | none => (.noListing, msg)
  | some emb =>
    let meta := parse_market_meta emb
    match meta.region with
    | none => (.metaMissing, msg)
    | some r =>
      if r.isEmpty || meta.seller_id == 0 then (.metaMissing, msg)
      else if buyer.id == meta.seller_id then
        match env r with
        | none => (.cfgError, msg)
        | some _ => (.isSeller, msg)
      else
        match env r with
        | none => (.cfgError, msg)
        | some _ => (.contacted, msg)

/-- bot.py:759-821 `MarketListingView.claim`: decode the footer; reject on
missing metadata, on the seller, on a missing eligibility role, or when
`claimed_by != 0`; otherwise rewrite the status field and the footer with
`claimed_by = buyer` in a single edit. -/
def market_claim (env : List Char → Option MarketCfg) (buyer : Actor) (msg : MarketMsg) :
    MOutcome × MarketMsg :=
  match msg.embeds.head? with
  | none => (.noListing, msg)
  | some emb =>
    let meta := parse_market_meta emb
    match meta.region with
    | none => (.metaMissing, msg)
    | some r =>
      if r.isEmpty || meta.seller_id == 0 then (.metaMissing, msg)
      else
        match env r with
        | none => (.cfgError, msg)
        | some cfg =>
          if buyer.id == meta.seller_id then (.isSeller, msg)
          else if cfg.allowed_role_id != 0 && !(has_role buyer cfg.allowed_role_id) then
            (.noRole, msg)
          else if meta.claimed_by != 0 then (.alreadyClaimed, msg)
          else
            let emb2 := { setStatusField emb (statusClaimedText buyer.id) with
              footer := some (market_meta meta.seller_id r buyer.id) }
            (.claimedOk, { msg with embeds := [emb2] })

/-- bot.py:823-881 `MarketListingView.close`: decode the footer; reject on
missing metadata; only the seller or region staff may close; on success
rewrite the status field to closed, re-encode the footer with the preserved
`claimed_by`, and re-attach the view with every affordance disabled. -/
def market_close (env : List Char → Option MarketCfg) (actor : Actor) (msg : MarketMsg) :
    MOutcome × MarketMsg :=
  match msg.embeds.head? with
  | none => (.noListing, msg)
  | some emb =>
    let meta := parse_market_meta emb
    match meta.region with
    | none => (.metaMissing, msg)
    | some r =>
      if r.isEmpty || meta.seller_id == 0 then (.metaMissing, msg)
      else
        match env r with
        | none => (.cfgError, msg)
        | some cfg =>
          if actor.id == meta.seller_id || is_market_staff actor cfg.staff_role_ids then
            let emb2 := { setStatusField emb statusClosedText with
              footer := some (market_meta meta.seller_id r meta.claimed_by) }
            (.closedOk, { msg with embeds := [emb2], viewDisabled := true })
          else (.notAllowedClose, msg)

/-! ## Claim theorems -/

/-- C10: for every list of role identifiers, deserialising the serialised
role-ID string returns the same list in the same order; hence popping a
role-snapshot backup immediately after saving it yields exactly the saved
grant list. -/
theorem C10_role_id_roundtrip :
    (∀ role_ids : List Nat,
      deserialize_role_ids (serialize_role_ids role_ids) = role_ids) ∧
    (∀ (st : MuteState) (guild_id user_id : Nat) (role_ids : List Nat),
      (pop_mute_roles_backup (save_mute_roles_backup st guild_id user_id role_ids)
        guild_id user_id).1 = role_ids) :=
  ⟨deserialize_serialize, pop_after_save⟩

/-- C6 counterexample: the claim's precondition only excludes delimiter and
`'='` characters, but `parse_topic` (and `parse_market_meta`) strip each
decoded key and value, so a value with a leading tab — which contains neither
a delimiter character nor `'='` — does not round-trip through either codec. -/
theorem C6_roundtrip_counterexample :
    ('|' ∉ ['\t', 'a'] ∧ '=' ∉ ['\t', 'a'] ∧
      parse_topic (some (encode_topic [("k".toList, ['\t', 'a'])]))
        ≠ [("k".toList, ['\t', 'a'])]) ∧
    ('|' ∉ ['\t', 'x'] ∧ '=' ∉ ['\t', 'x'] ∧
      parse_market_meta ⟨[], some (market_meta 5 ['\t', 'x'] 7)⟩
        ≠ ⟨5, some ['\t', 'x'], 7⟩) := by
  decide

/-- C6 amended: decode after encode is the identity for both sidecar codecs
on mappings whose keys and values contain no delimiter character, no `'='`,
and additionally no leading or trailing strippable whitespace (the decoders
strip each key and value, so whitespace at either end is not preserved).
First conjunct: the channel-metadata codec on arbitrary mappings with
distinct keys.  Second conjunct: the message-metadata codec on its three
fixed fields (seller, region, claimant). -/
theorem C6_roundtrip_amended :
    (∀ m : List (List Char × List Char),
      (m.map Prod.fst).Nodup →
      (∀ kv ∈ m, goodField kv.1 ∧ goodField kv.2) →
      parse_topic (some (encode_topic m)) = m) ∧
    (∀ (fields : List (List Char × List Char)) (s c : Nat) (r : List Char),
      '|' ∉ r → '=' ∉ r → wsTrimmed r = true →
      parse_market_meta ⟨fields, some (market_meta s r c)⟩ = ⟨s, some r, c⟩) :=
  ⟨parse_topic_encode,
   fun fields s c r hbar _ htrim => parse_market_meta_market_meta fields s c r hbar htrim⟩

/-- C6 witness: the amended round trip evaluated at concrete inputs. -/
theorem C6_roundtrip_witness :
    parse_topic (some (encode_topic
        [("ticket_type".toList, "Question".toList), ("user_id".toList, "12".toList)]))
      = [("ticket_type".toList, "Question".toList), ("user_id".toList, "12".toList)] ∧
    parse_market_meta ⟨[], some (market_meta 7 "berlin".toList 0)⟩
      = ⟨7, some "berlin".toList, 0⟩ := by
  constructor
  · exact C6_roundtrip_amended.1 _ (by decide) (by decide)
  · exact C6_roundtrip_amended.2 [] 7 0 "berlin".toList (by decide) (by decide) (by decide)

theorem ticket_topic_as_encode (kind : List Char) (member_id : Nat) :
    ticket_topic kind member_id
      = encode_topic [("ticket_type".toList, kind), ("user_id".toList, natRepr member_id),
          ("claimed_by".toList, "none".toList)] := by
  simp only [encode_topic, List.map_cons, List.map_nil, pyJoin, ticket_topic]
  have h1 : "ticket_type=".toList = "ticket_type".toList ++ ['='] := by decide
  have h2 : " | user_id=".toList = [' ', '|', ' '] ++ ("user_id".toList ++ ['=']) := by decide
  have h3 : " | claimed_by=none".toList
      = [' ', '|', ' '] ++ ("claimed_by".toList ++ ['='] ++ "none".toList) := by decide
  rw [h1, h2, h3]
  simp [List.append_assoc]

theorem parse_ticket_topic (kind : List Char) (member_id : Nat) (hg : goodField kind) :
    parse_topic (some (ticket_topic kind member_id))
      = [("ticket_type".toList, kind), ("user_id".toList, natRepr member_id),
         ("claimed_by".toList, "none".toList)] := by
  rw [ticket_topic_as_encode]
  refine parse_topic_encode _ ?_ ?_
  · simp only [List.map_cons, List.map_nil]
    decide
  intro kv hkv
  have hmid : goodField (natRepr member_id) :=
    ⟨natRepr_no_bar member_id, natRepr_no_eq member_id, natRepr_trimmed member_id⟩
  rcases List.mem_cons.mp hkv with h | h
  · subst h
    exact show goodField "ticket_type".toList ∧ goodField kind from ⟨by decide, hg⟩
  rcases List.mem_cons.mp h with h2 | h2
  · subst h2
    exact show goodField "user_id".toList ∧ goodField (natRepr member_id) from ⟨by decide, hmid⟩
  rcases List.mem_cons.mp h2 with h3 | h3
  · subst h3
    exact show goodField "claimed_by".toList ∧ goodField "none".toList from ⟨by decide, by decide⟩
  · cases h3

/-- C5 counterexample: the duplicate-open guard is a raw substring test
(`f"user_id={member.id}" in ch.topic`, bot.py:616), not an equality on the
decoded owner field: member 12 is rejected against a channel whose decoded
owner is 123, because `user_id=12` occurs inside `user_id=123`. -/
theorem C5_dup_guard_counterexample :
    create_ticket
        [⟨"ticket-1".toList, some "ticket_type=Question | user_id=123 | claimed_by=none".toList⟩]
        ["ticket-1".toList] 12 "Question".toList
      = .alreadyHas
          ⟨"ticket-1".toList, some "ticket_type=Question | user_id=123 | claimed_by=none".toList⟩
    ∧ dictGet (parse_topic
          (some "ticket_type=Question | user_id=123 | claimed_by=none".toList)) "user_id".toList
        = some "123".toList
    ∧ "123".toList ≠ natRepr 12 := by
  decide

/-- C5 amended: `open` is rejected — returning a matching channel — exactly
when some existing channel in the ticket area has a nonempty topic containing
the substring `user_id=<member>` (so in particular any decoded owner having
the requester's id as a decimal prefix also triggers rejection); when no
channel's topic contains that substring, a new ticket channel is created
whose decoded sidecar is exactly category, owner = member, claimant none. -/
theorem C5_dup_guard_amended (categoryChans : List Chan) (guildChanNames : List (List Char))
    (member_id : Nat) (kind : List Char) :
    (∀ ch, create_ticket categoryChans guildChanNames member_id kind = .alreadyHas ch →
      ch ∈ categoryChans ∧ ∃ tp, ch.topic = some tp ∧ tp ≠ [] ∧
        listContains (user_needle member_id) tp = true) ∧
    ((∃ ch ∈ categoryChans, ∃ tp, ch.topic = some tp ∧ tp ≠ [] ∧
        listContains (user_needle member_id) tp = true) →
      ∃ ch, create_ticket categoryChans guildChanNames member_id kind = .alreadyHas ch) ∧
    (goodField kind →
      (¬ ∃ ch ∈ categoryChans, ∃ tp, ch.topic = some tp ∧ tp ≠ [] ∧
        listContains (user_needle member_id) tp = true) →
      create_ticket categoryChans guildChanNames member_id kind
        = .created ⟨"ticket-".toList ++ natRepr (next_ticket_number guildChanNames),
            some (ticket_topic kind member_id)⟩ ∧
      parse_topic (some (ticket_topic kind member_id))
        = [("ticket_type".toList, kind), ("user_id".toList, natRepr member_id),
           ("claimed_by".toList, "none".toList)]) := by
  refine ⟨?_, ?_, ?_⟩
  · intro ch hch
    unfold create_ticket at hch
    cases hf : categoryChans.find? (fun ch =>
      match ch.topic with
      | some tp => !tp.isEmpty && listContains (user_needle member_id) tp
      | none => false) with
    | none => rw [hf] at hch; simp at hch
    | some ch' =>
      rw [hf] at hch
      simp only [TicketCreateResult.alreadyHas.injEq] at hch
      subst hch
      have hmem := List.mem_of_find?_eq_some hf
      have hpred := List.find?_some hf
      refine ⟨hmem, ?_⟩
      cases htp : ch'.topic with
      | none => rw [htp] at hpred; simp at hpred
      | some tp =>
        rw [htp] at hpred
        simp only [Bool.and_eq_true, Bool.not_eq_true', List.isEmpty_eq_false] at hpred
        exact ⟨tp, rfl, by simpa using hpred.1, hpred.2⟩
  · rintro ⟨ch, hmem, tp, htp, hne, hcont⟩
    have hsome : (categoryChans.find? (fun ch =>
        match ch.topic with
        | some tp => !tp.isEmpty && listContains (user_needle member_id) tp
        | none => false)).isSome := by
      rw [List.find?_isSome]
      refine ⟨ch, hmem, ?_⟩
      rw [htp]
      simp [hne, hcont]
    obtain ⟨ch', hch'⟩ := Option.isSome_iff_exists.mp hsome
    refine ⟨ch', ?_⟩
    unfold create_ticket
    rw [hch']
  · intro hg hno
    have hnone : categoryChans.find? (fun ch =>
        match ch.topic with
        | some tp => !tp.isEmpty && listContains (user_needle member_id) tp
        | none => false) = none := by
      rw [List.find?_eq_none]
      intro ch hmem
      cases htp : ch.topic with
      | none => simp
      | some tp =>
        simp only [Bool.and_eq_true, Bool.not_eq_true', List.isEmpty_eq_false, not_and]
        intro hne
        by_contra hcont
        exact hno ⟨ch, hmem, tp, htp, by simpa using hne, by simpa using hcont⟩
    constructor
    · unfold create_ticket
      rw [hnone]
    · exact parse_ticket_topic kind member_id hg

/-- C5 witness: the amended theorem applied to a concrete guard hit and a
concrete creation. -/
theorem C5_dup_guard_witness :
    (∃ ch, create_ticket
        [⟨"ticket-1".toList, some "ticket_type=Question | user_id=3 | claimed_by=none".toList⟩]
        ["ticket-1".toList] 3 "Recruitment".toList = .alreadyHas ch) ∧
    create_ticket [] [] 3 "Question".toList
      = .created ⟨"ticket-".toList ++ natRepr (next_ticket_number []),
          some (ticket_topic "Question".toList 3)⟩ ∧
    parse_topic (some (ticket_topic "Question".toList 3))
      = [("ticket_type".toList, "Question".toList), ("user_id".toList, natRepr 3),
         ("claimed_by".toList, "none".toList)] := by
  refine ⟨?_, ?_⟩
  · exact (C5_dup_guard_amended
      [⟨"ticket-1".toList, some "ticket_type=Question | user_id=3 | claimed_by=none".toList⟩]
      ["ticket-1".toList] 3 "Recruitment".toList).2.1
      ⟨_, List.mem_cons_self _ _,
        "ticket_type=Question | user_id=3 | claimed_by=none".toList, rfl, by decide, by decide⟩
  · exact (C5_dup_guard_amended [] [] 3 "Question".toList).2.2 (by decide) (by simp)

/-- The canonical ticket sidecar shape the system writes: creation uses
claimant `none` (bot.py:633) and the claim rewrite replaces only the claimant
segment (bot.py:570-581). -/
def ticket_topic_raw (t u c : List Char) : List Char :=
  "ticket_type=".toList ++ t ++ " | user_id=".toList ++ u ++ " | claimed_by=".toList ++ c

theorem ticket_topic_raw_as_encode (t u c : List Char) :
    ticket_topic_raw t u c
      = encode_topic [("ticket_type".toList, t), ("user_id".toList, u),
          ("claimed_by".toList, c)] := by
  simp only [encode_topic, List.map_cons, List.map_nil, pyJoin, ticket_topic_raw]
  have h1 : "ticket_type=".toList = "ticket_type".toList ++ ['='] := by decide
  have h2 : " | user_id=".toList = [' ', '|', ' '] ++ ("user_id".toList ++ ['=']) := by decide
  have h3 : " | claimed_by=".toList = [' ', '|', ' '] ++ ("claimed_by".toList ++ ['=']) := by
    decide
  rw [h1, h2, h3]
  simp [List.append_assoc]

theorem parse_ticket_topic_raw (t u c : List Char)
    (hgt : goodField t) (hgu : goodField u) (hgc : goodField c) :
    parse_topic (some (ticket_topic_raw t u c))
      = [("ticket_type".toList, t), ("user_id".toList, u), ("claimed_by".toList, c)] := by
  rw [ticket_topic_raw_as_encode]
  refine parse_topic_encode _ ?_ ?_
  · simp only [List.map_cons, List.map_nil]
    decide
  intro kv hkv
  rcases List.mem_cons.mp hkv with h | h
  · subst h
    exact show goodField "ticket_type".toList ∧ goodField t from ⟨by decide, hgt⟩
  rcases List.mem_cons.mp h with h2 | h2
  · subst h2
    exact show goodField "user_id".toList ∧ goodField u from ⟨by decide, hgu⟩
  rcases List.mem_cons.mp h2 with h3 | h3
  · subst h3
    exact show goodField "claimed_by".toList ∧ goodField c from ⟨by decide, hgc⟩
  · cases h3

theorem dictGet_raw_claimed_by (t u c : List Char) :
    dictGet [("ticket_type".toList, t), ("user_id".toList, u), ("claimed_by".toList, c)]
      "claimed_by".toList = some c := by
  have h1 : ("ticket_type".toList == "claimed_by".toList) = false := by decide
  have h2 : ("user_id".toList == "claimed_by".toList) = false := by decide
  have h3 : ("claimed_by".toList == "claimed_by".toList) = true := by decide
  simp [dictGet, List.find?, h1, h2, h3]

theorem claimed_by_not_prefix_tt (t : List Char) :
    ("claimed_by=".toList).isPrefixOf ("ticket_type".toList ++ '=' :: t) = false := by
  have h : "ticket_type".toList ++ '=' :: t = 't' :: ("icket_type".toList ++ '=' :: t) := by
    have h0 : "ticket_type".toList = 't' :: "icket_type".toList := by decide
    rw [h0]
    rfl
  have h0 : "claimed_by=".toList = 'c' :: "laimed_by=".toList := by decide
  have hct : ('c' == 't') = false := by decide
  rw [h, h0]
  simp [List.isPrefixOf, hct]

theorem claimed_by_not_prefix_uid (u : List Char) :
    ("claimed_by=".toList).isPrefixOf ("user_id".toList ++ '=' :: u) = false := by
  have h : "user_id".toList ++ '=' :: u = 'u' :: ("ser_id".toList ++ '=' :: u) := by
    have h0 : "user_id".toList = 'u' :: "ser_id".toList := by decide
    rw [h0]
    rfl
  have h0 : "claimed_by=".toList = 'c' :: "laimed_by=".toList := by decide
  have hcu : ('c' == 'u') = false := by decide
  rw [h, h0]
  simp [List.isPrefixOf, hcu]

theorem claimed_by_prefix_self (c : List Char) :
    ("claimed_by=".toList).isPrefixOf ("claimed_by".toList ++ '=' :: c) = true := by
  have h : "claimed_by".toList ++ '=' :: c = "claimed_by=".toList ++ c := by
    have h0 : "claimed_by=".toList = "claimed_by".toList ++ ['='] := by decide
    rw [h0, List.append_assoc]
    rfl
  rw [h]
  exact isPrefixOf_append_self _ c

theorem ticket_claim_rewrite_raw (t u c : List Char) (actor_id : Nat)
    (hgt : goodField t) (hgu : goodField u) (hgc : goodField c) :
    ticket_claim_rewrite (ticket_topic_raw t u c) actor_id
      = ticket_topic_raw t u (natRepr actor_id) := by
  have hcontains : listContains ("claimed_by=".toList) (ticket_topic_raw t u c) = true := by
    have hshape : ticket_topic_raw t u c
        = ("ticket_type=".toList ++ t ++ " | user_id=".toList ++ u ++ [' ', '|', ' '])
          ++ ("claimed_by=".toList ++ c) := by
      have h3 : " | claimed_by=".toList = [' ', '|', ' '] ++ "claimed_by=".toList := by decide
      simp only [ticket_topic_raw, h3]
      simp [List.append_assoc]
    rw [hshape]
    exact listContains_append_mid _ _ _
  have hparts : ∀ p ∈ [("ticket_type".toList ++ '=' :: t), ("user_id".toList ++ '=' :: u),
      ("claimed_by".toList ++ '=' :: c)], '|' ∉ p ∧ wsTrimmed p = true := by
    intro p hp
    have key : ∀ (k v : List Char), goodField v → '|' ∉ k → '=' ∉ k → wsTrimmed k = true →
        '|' ∉ (k ++ '=' :: v) ∧ wsTrimmed (k ++ '=' :: v) = true := by
      intro k v hgv hbk _ htk
      constructor
      · intro hm
        rcases List.mem_append.mp hm with h1 | h2
        · exact hbk h1
        · rcases List.mem_cons.mp h2 with h3 | h4
          · cases h3
          · exact hgv.1 h4
      · exact wsTrimmed_field_pair k v htk hgv.2.2
    rcases List.mem_cons.mp hp with h | h
    · subst h
      exact key _ t hgt (by decide) (by decide) (by decide)
    rcases List.mem_cons.mp h with h2 | h2
    · subst h2
      exact key _ u hgu (by decide) (by decide) (by decide)
    rcases List.mem_cons.mp h2 with h3 | h3
    · subst h3
      exact key _ c hgc (by decide) (by decide) (by decide)
    · cases h3
  have hsplit : (splitCh '|' (ticket_topic_raw t u c)).map pyStrip
      = [("ticket_type".toList ++ '=' :: t), ("user_id".toList ++ '=' :: u),
         ("claimed_by".toList ++ '=' :: c)] := by
    rw [ticket_topic_raw_as_encode]
    exact splitJoin_strip _ (by simp) hparts
  simp only [ticket_claim_rewrite, hcontains, if_pos]
  rw [hsplit]
  simp only [List.map_cons, List.map_nil, claimed_by_not_prefix_tt, claimed_by_not_prefix_uid,
    claimed_by_prefix_self, Bool.false_eq_true, if_neg, if_pos, ite_false, ite_true]
  have hfinal : "claimed_by=".toList ++ natRepr actor_id
      = "claimed_by".toList ++ '=' :: natRepr actor_id := by
    have h0 : "claimed_by=".toList = "claimed_by".toList ++ ['='] := by decide
    rw [h0, List.append_assoc]
    rfl
  rw [hfinal]
  show pyJoin [' ', '|', ' ']
      (List.map (fun kv : List Char × List Char => kv.1 ++ '=' :: kv.2)
        [("ticket_type".toList, t), ("user_id".toList, u),
         ("claimed_by".toList, natRepr actor_id)])
    = ticket_topic_raw t u (natRepr actor_id)
  exact (ticket_topic_raw_as_encode t u (natRepr actor_id)).symm

theorem ticket_claim_frame (staff_role_ids : List Nat) (actor : Actor) (t u c : List Char)
    (hst : is_staff actor staff_role_ids = true)
    (hgt : goodField t) (hgu : goodField u) (hgc : goodField c) :
    (c ≠ [] → c ≠ "none".toList →
      claim_ticket staff_role_ids actor (some (ticket_topic_raw t u c))
        = (.alreadyClaimed, some (ticket_topic_raw t u c))) ∧
    (claim_ticket staff_role_ids actor (some (ticket_topic_raw t u "none".toList))
        = (.claimedOk, some (ticket_topic_raw t u (natRepr actor.id)))
      ∧ parse_topic (some (ticket_topic_raw t u (natRepr actor.id)))
        = [("ticket_type".toList, t), ("user_id".toList, u),
           ("claimed_by".toList, natRepr actor.id)]) := by
  constructor
  · intro hne hnone
    simp only [claim_ticket, hst, Bool.not_true, Bool.false_eq_true, if_false]
    rw [parse_ticket_topic_raw t u c hgt hgu hgc, dictGet_raw_claimed_by]
    have hnone' : c ≠ ['n', 'o', 'n', 'e'] := hnone
    simp [hne, hnone']
  · constructor
    · simp only [claim_ticket, hst, Bool.not_true, Bool.false_eq_true, if_false]
      rw [parse_ticket_topic_raw t u _ hgt hgu (by decide), dictGet_raw_claimed_by]
      show (TOutcome.claimedOk,
          some (ticket_claim_rewrite (ticket_topic_raw t u ("none".toList)) actor.id))
        = (TOutcome.claimedOk, some (ticket_topic_raw t u (natRepr actor.id)))
      rw [ticket_claim_rewrite_raw t u ("none".toList) actor.id hgt hgu (by decide)]
    · exact parse_ticket_topic_raw t u (natRepr actor.id) hgt hgu
        ⟨natRepr_no_bar actor.id, natRepr_no_eq actor.id, natRepr_trimmed actor.id⟩

theorem market_claim_frame (env : List Char → Option MarketCfg) (buyer : Actor)
    (s c : Nat) (r : List Char) (fields : List (List Char × List Char))
    (disabled : Bool) (cfg : MarketCfg)
    (hrne : r ≠ []) (hbar : '|' ∉ r) (htrim : wsTrimmed r = true)
    (hs : s ≠ 0) (henv : env r = some cfg) :
    (buyer.id = s →
      market_claim env buyer ⟨[⟨fields, some (market_meta s r c)⟩], disabled⟩
        = (.isSeller, ⟨[⟨fields, some (market_meta s r c)⟩], disabled⟩)) ∧
    (buyer.id ≠ s → cfg.allowed_role_id ≠ 0 → has_role buyer cfg.allowed_role_id = false →
      market_claim env buyer ⟨[⟨fields, some (market_meta s r c)⟩], disabled⟩
        = (.noRole, ⟨[⟨fields, some (market_meta s r c)⟩], disabled⟩)) ∧
    (buyer.id ≠ s → (cfg.allowed_role_id = 0 ∨ has_role buyer cfg.allowed_role_id = true) →
      c ≠ 0 →
      market_claim env buyer ⟨[⟨fields, some (market_meta s r c)⟩], disabled⟩
        = (.alreadyClaimed, ⟨[⟨fields, some (market_meta s r c)⟩], disabled⟩)) ∧
    (buyer.id ≠ s → (cfg.allowed_role_id = 0 ∨ has_role buyer cfg.allowed_role_id = true) →
      c = 0 →
      market_claim env buyer ⟨[⟨fields, some (market_meta s r c)⟩], disabled⟩
        = (.claimedOk, ⟨[⟨setFieldStatus fields (statusClaimedText buyer.id),
            some (market_meta s r buyer.id)⟩], disabled⟩)) := by
  have hmeta : parse_market_meta ⟨fields, some (market_meta s r c)⟩
      = ⟨s, some r, c⟩ := parse_market_meta_market_meta fields s c r hbar htrim
  have hre : r.isEmpty = false := by
    cases r with
    | nil => exact absurd rfl hrne
    | cons a b => rfl
  have hs0 : (s == 0) = false := by
    simp [hs]
  refine ⟨?_, ?_, ?_, ?_⟩
  · intro hsell
    simp only [market_claim, List.head?_cons, hmeta, hre, hs0, Bool.or_self, Bool.false_eq_true,
      if_false, henv]
    have : (buyer.id == s) = true := by simp [hsell]
    simp [this]
  · intro hnsell hrid hrole
    simp only [market_claim, List.head?_cons, hmeta, hre, hs0, Bool.or_self, Bool.false_eq_true,
      if_false, henv]
    have h1 : (buyer.id == s) = false := by simp [hnsell]
    have h2 : (cfg.allowed_role_id != 0) = true := by simp [hrid]
    simp [h1, h2, hrole]
  · intro hnsell hok hc
    simp only [market_claim, List.head?_cons, hmeta, hre, hs0, Bool.or_self, Bool.false_eq_true,
      if_false, henv]
    have h1 : (buyer.id == s) = false := by simp [hnsell]
    have h2 : (cfg.allowed_role_id != 0 && !(has_role buyer cfg.allowed_role_id)) = false := by
      rcases hok with h | h
      · simp [h]
      · simp [h]
    have h3 : (c != 0) = true := by simp [hc]
    simp [h1, h2, h3]
  · intro hnsell hok hc
    simp only [market_claim, List.head?_cons, hmeta, hre, hs0, Bool.or_self, Bool.false_eq_true,
      if_false, henv]
    have h1 : (buyer.id == s) = false := by simp [hnsell]
    have h2 : (cfg.allowed_role_id != 0 && !(has_role buyer cfg.allowed_role_id)) = false := by
      rcases hok with h | h
      · simp [h]
      · simp [h]
    have h3 : (c != 0) = false := by simp [hc]
    simp [h1, h2, h3, setStatusField]

theorem market_contact_frame (env : List Char → Option MarketCfg) (buyer : Actor)
    (s c : Nat) (r : List Char) (fields : List (List Char × List Char))
    (disabled : Bool) (cfg : MarketCfg)
    (hrne : r ≠ []) (hbar : '|' ∉ r) (htrim : wsTrimmed r = true)
    (hs : s ≠ 0) (henv : env r = some cfg) :
    (buyer.id = s →
      market_contact env buyer ⟨[⟨fields, some (market_meta s r c)⟩], disabled⟩
        = (.isSeller, ⟨[⟨fields, some (market_meta s r c)⟩], disabled⟩)) ∧
    (buyer.id ≠ s →
      market_contact env buyer ⟨[⟨fields, some (market_meta s r c)⟩], disabled⟩
        = (.contacted, ⟨[⟨fields, some (market_meta s r c)⟩], disabled⟩)) := by
  have hmeta : parse_market_meta ⟨fields, some (market_meta s r c)⟩
      = ⟨s, some r, c⟩ := parse_market_meta_market_meta fields s c r hbar htrim
  have hre : r.isEmpty = false := by
    cases r with
    | nil => exact absurd rfl hrne
    | cons a b => rfl
  have hs0 : (s == 0) = false := by simp [hs]
  constructor
  · intro hsell
    simp only [market_contact, List.head?_cons, hmeta, hre, hs0, Bool.or_self,
      Bool.false_eq_true, if_false, henv]
    have : (buyer.id == s) = true := by simp [hsell]
    simp [this, henv]
  · intro hnsell
    simp only [market_contact, List.head?_cons, hmeta, hre, hs0, Bool.or_self,
      Bool.false_eq_true, if_false, henv]
    have : (buyer.id == s) = false := by simp [hnsell]
    simp [this, henv]

theorem market_close_frame (env : List Char → Option MarketCfg) (actor : Actor)
    (s c : Nat) (r : List Char) (fields : List (List Char × List Char))
    (disabled : Bool) (cfg : MarketCfg)
    (hrne : r ≠ []) (hbar : '|' ∉ r) (htrim : wsTrimmed r = true)
    (hs : s ≠ 0) (henv : env r = some cfg) :
    (actor.id = s ∨ is_market_staff actor cfg.staff_role_ids = true →
      market_close env actor ⟨[⟨fields, some (market_meta s r c)⟩], disabled⟩
        = (.closedOk, ⟨[⟨setFieldStatus fields statusClosedText,
            some (market_meta s r c)⟩], true⟩)) ∧
    (actor.id ≠ s → is_market_staff actor cfg.staff_role_ids = false →
      market_close env actor ⟨[⟨fields, some (market_meta s r c)⟩], disabled⟩
        = (.notAllowedClose, ⟨[⟨fields, some (market_meta s r c)⟩], disabled⟩)) := by
  have hmeta : parse_market_meta ⟨fields, some (market_meta s r c)⟩
      = ⟨s, some r, c⟩ := parse_market_meta_market_meta fields s c r hbar htrim
  have hre : r.isEmpty = false := by
    cases r with
    | nil => exact absurd rfl hrne
    | cons a b => rfl
  have hs0 : (s == 0) = false := by simp [hs]
  constructor
  · intro hauth
    simp only [market_close, List.head?_cons, hmeta, hre, hs0, Bool.or_self,
      Bool.false_eq_true, if_false, henv]
    have hcond : (actor.id == s || is_market_staff actor cfg.staff_role_ids) = true := by
      rcases hauth with h | h
      · simp [h]
      · simp [h]
    simp [hcond, setStatusField]
  · intro hnown hnstaff
    simp only [market_close, List.head?_cons, hmeta, hre, hs0, Bool.or_self,
      Bool.false_eq_true, if_false, henv]
    have hcond : (actor.id == s || is_market_staff actor cfg.staff_role_ids) = false := by
      simp [hnown, hnstaff]
    simp [hcond]

/-- C9: for ticket claim and listing claim alike, a rejection (claimant
already set — ticket `claimed_by` truthy and not `"none"`, listing
`claimed_by ≠ 0` — or, for listings, the actor being the seller or lacking
the region's eligibility capability) leaves the sidecar untouched; otherwise
the sidecar is rewritten with claimant = actor while every other sidecar
field — ticket category and owner, listing seller and region — is unchanged. -/
theorem C9_claim_reject_or_rewrite :
    (∀ (staff_role_ids : List Nat) (actor : Actor) (t u c : List Char),
      is_staff actor staff_role_ids = true → goodField t → goodField u → goodField c →
      (c ≠ [] → c ≠ "none".toList →
        claim_ticket staff_role_ids actor (some (ticket_topic_raw t u c))
          = (.alreadyClaimed, some (ticket_topic_raw t u c))) ∧
      (claim_ticket staff_role_ids actor (some (ticket_topic_raw t u "none".toList))
          = (.claimedOk, some (ticket_topic_raw t u (natRepr actor.id)))
        ∧ parse_topic (some (ticket_topic_raw t u (natRepr actor.id)))
          = [("ticket_type".toList, t), ("user_id".toList, u),
             ("claimed_by".toList, natRepr actor.id)])) ∧
    (∀ (env : List Char → Option MarketCfg) (buyer : Actor) (s c : Nat) (r : List Char)
      (fields : List (List Char × List Char)) (disabled : Bool) (cfg : MarketCfg),
      r ≠ [] → '|' ∉ r → wsTrimmed r = true → s ≠ 0 → env r = some cfg →
      (buyer.id = s →
        market_claim env buyer ⟨[⟨fields, some (market_meta s r c)⟩], disabled⟩
          = (.isSeller, ⟨[⟨fields, some (market_meta s r c)⟩], disabled⟩)) ∧
      (buyer.id ≠ s → cfg.allowed_role_id ≠ 0 → has_role buyer cfg.allowed_role_id = false →
        market_claim env buyer ⟨[⟨fields, some (market_meta s r c)⟩], disabled⟩
          = (.noRole, ⟨[⟨fields, some (market_meta s r c)⟩], disabled⟩)) ∧
      (buyer.id ≠ s → (cfg.allowed_role_id = 0 ∨ has_role buyer cfg.allowed_role_id = true) →
        c ≠ 0 →
        market_claim env buyer ⟨[⟨fields, some (market_meta s r c)⟩], disabled⟩
          = (.alreadyClaimed, ⟨[⟨fields, some (market_meta s r c)⟩], disabled⟩)) ∧
      (buyer.id ≠ s → (cfg.allowed_role_id = 0 ∨ has_role buyer cfg.allowed_role_id = true) →
        c = 0 →
        market_claim env buyer ⟨[⟨fields, some (market_meta s r c)⟩], disabled⟩
          = (.claimedOk, ⟨[⟨setFieldStatus fields (statusClaimedText buyer.id),
              some (market_meta s r buyer.id)⟩], disabled⟩))) :=
  ⟨fun staff_role_ids actor t u c h1 h2 h3 h4 =>
    ticket_claim_frame staff_role_ids actor t u c h1 h2 h3 h4,
   fun env buyer s c r fields disabled cfg h1 h2 h3 h4 h5 =>
    market_claim_frame env buyer s c r fields disabled cfg h1 h2 h3 h4 h5⟩

/-- C9 witness: both halves of the claim evaluated on concrete states — a
claimed ticket rejects, an unclaimed ticket is rewritten, a claimed listing
rejects, an unclaimed listing is rewritten with seller and region intact. -/
theorem C9_claim_reject_or_rewrite_witness :
    (claim_ticket [5] ⟨9, [5], false⟩
        (some (ticket_topic_raw "Question".toList "3".toList "7".toList))
      = (.alreadyClaimed,
        some (ticket_topic_raw "Question".toList "3".toList "7".toList))) ∧
    (claim_ticket [5] ⟨9, [5], false⟩
        (some (ticket_topic_raw "Question".toList "3".toList "none".toList))
      = (.claimedOk,
        some (ticket_topic_raw "Question".toList "3".toList (natRepr 9)))) ∧
    (market_claim (fun r => if r = "berlin".toList then some ⟨10, [99]⟩ else none)
        ⟨2, [10], false⟩
        ⟨[⟨[], some (market_meta 1 "berlin".toList 7)⟩], false⟩
      = (.alreadyClaimed, ⟨[⟨[], some (market_meta 1 "berlin".toList 7)⟩], false⟩)) ∧
    (market_claim (fun r => if r = "berlin".toList then some ⟨10, [99]⟩ else none)
        ⟨2, [10], false⟩
        ⟨[⟨[], some (market_meta 1 "berlin".toList 0)⟩], false⟩
      = (.claimedOk, ⟨[⟨[("Status".toList, statusClaimedText 2)],
          some (market_meta 1 "berlin".toList 2)⟩], false⟩)) := by
  refine ⟨?_, ?_, ?_, ?_⟩
  · exact (C9_claim_reject_or_rewrite.1 [5] ⟨9, [5], false⟩ "Question".toList "3".toList
      "7".toList (by decide) (by decide) (by decide) (by decide)).1 (by decide) (by decide)
  · exact (C9_claim_reject_or_rewrite.1 [5] ⟨9, [5], false⟩ "Question".toList "3".toList
      "none".toList (by decide) (by decide) (by decide) (by decide)).2.1
  · exact (C9_claim_reject_or_rewrite.2
      (fun r => if r = "berlin".toList then some ⟨10, [99]⟩ else none)
      ⟨2, [10], false⟩ 1 7 "berlin".toList [] false ⟨10, [99]⟩
      (by decide) (by decide) (by decide) (by decide) (by simp)).2.2.1
      (by decide) (by right; decide) (by decide)
  · exact (C9_claim_reject_or_rewrite.2
      (fun r => if r = "berlin".toList then some ⟨10, [99]⟩ else none)
      ⟨2, [10], false⟩ 1 0 "berlin".toList [] false ⟨10, [99]⟩
      (by decide) (by decide) (by decide) (by decide) (by simp)).2.2.2
      (by decide) (by right; decide) rfl

/-- C1 counterexample: `close` rewrites only the cosmetic status field and
re-attaches a disabled view; the sidecar footer has no status field and the
handlers never re-check closure.  On a listing closed while unclaimed, a
`claim` arriving through a pre-close handler reference still succeeds and
mutates the sidecar, and `contact` still posts the ping — neither call is
rejected, contradicting the claim. -/
theorem C1_close_terminal_counterexample :
    (market_close (fun r => if r = "berlin".toList then some ⟨0, [99]⟩ else none)
        ⟨1, [], false⟩
        ⟨[⟨[("Status".toList, "open".toList)], some (market_meta 1 "berlin".toList 0)⟩],
          false⟩).1 = .closedOk ∧
    (market_claim (fun r => if r = "berlin".toList then some ⟨0, [99]⟩ else none)
        ⟨2, [], false⟩
        (market_close (fun r => if r = "berlin".toList then some ⟨0, [99]⟩ else none)
          ⟨1, [], false⟩
          ⟨[⟨[("Status".toList, "open".toList)], some (market_meta 1 "berlin".toList 0)⟩],
            false⟩).2).1 = .claimedOk ∧
    (market_claim (fun r => if r = "berlin".toList then some ⟨0, [99]⟩ else none)
        ⟨2, [], false⟩
        (market_close (fun r => if r = "berlin".toList then some ⟨0, [99]⟩ else none)
          ⟨1, [], false⟩
          ⟨[⟨[("Status".toList, "open".toList)], some (market_meta 1 "berlin".toList 0)⟩],
            false⟩).2).2
      ≠ (market_close (fun r => if r = "berlin".toList then some ⟨0, [99]⟩ else none)
          ⟨1, [], false⟩
          ⟨[⟨[("Status".toList, "open".toList)], some (market_meta 1 "berlin".toList 0)⟩],
            false⟩).2 ∧
    (market_contact (fun r => if r = "berlin".toList then some ⟨0, [99]⟩ else none)
        ⟨2, [], false⟩
        (market_close (fun r => if r = "berlin".toList then some ⟨0, [99]⟩ else none)
          ⟨1, [], false⟩
          ⟨[⟨[("Status".toList, "open".toList)], some (market_meta 1 "berlin".toList 0)⟩],
            false⟩).2).1 = .contacted := by
  decide

/-- C1 amended: after a successful `close` the sole enforcement of the
terminal state is the re-attached all-disabled affordance set; the handlers
do not re-check closure from the sidecar (which carries no status field).  A
`contact` against the closed message by a non-seller still posts the ping,
and a `claim` against it is decided exactly by the ordinary claim guards on
the preserved sidecar: rejected as already-claimed iff the pre-close claimant
was nonzero, and otherwise it succeeds and mutates the closed listing's
sidecar to claimant = actor. -/
theorem C1_close_terminal_amended (env : List Char → Option MarketCfg)
    (closer buyer : Actor) (s c : Nat) (r : List Char)
    (fields : List (List Char × List Char)) (disabled : Bool) (cfg : MarketCfg)
    (hrne : r ≠ []) (hbar : '|' ∉ r) (htrim : wsTrimmed r = true) (hs : s ≠ 0)
    (henv : env r = some cfg)
    (hauth : closer.id = s ∨ is_market_staff closer cfg.staff_role_ids = true)
    (hnb : buyer.id ≠ s)
    (hrole : cfg.allowed_role_id = 0 ∨ has_role buyer cfg.allowed_role_id = true) :
    market_close env closer ⟨[⟨fields, some (market_meta s r c)⟩], disabled⟩
      = (.closedOk, ⟨[⟨setFieldStatus fields statusClosedText,
          some (market_meta s r c)⟩], true⟩) ∧
    market_contact env buyer ⟨[⟨setFieldStatus fields statusClosedText,
        some (market_meta s r c)⟩], true⟩
      = (.contacted, ⟨[⟨setFieldStatus fields statusClosedText,
          some (market_meta s r c)⟩], true⟩) ∧
    (c ≠ 0 → market_claim env buyer ⟨[⟨setFieldStatus fields statusClosedText,
        some (market_meta s r c)⟩], true⟩
      = (.alreadyClaimed, ⟨[⟨setFieldStatus fields statusClosedText,
          some (market_meta s r c)⟩], true⟩)) ∧
    (c = 0 → market_claim env buyer ⟨[⟨setFieldStatus fields statusClosedText,
        some (market_meta s r c)⟩], true⟩
      = (.claimedOk, ⟨[⟨setFieldStatus (setFieldStatus fields statusClosedText)
          (statusClaimedText buyer.id), some (market_meta s r buyer.id)⟩], true⟩)) := by
  refine ⟨?_, ?_, ?_, ?_⟩
  · exact (market_close_frame env closer s c r fields disabled cfg
      hrne hbar htrim hs henv).1 hauth
  · exact (market_contact_frame env buyer s c r (setFieldStatus fields statusClosedText)
      true cfg hrne hbar htrim hs henv).2 hnb
  · exact fun hc => (market_claim_frame env buyer s c r
      (setFieldStatus fields statusClosedText) true cfg hrne hbar htrim hs henv).2.2.1
      hnb hrole hc
  · exact fun hc => (market_claim_frame env buyer s c r
      (setFieldStatus fields statusClosedText) true cfg hrne hbar htrim hs henv).2.2.2
      hnb hrole hc

/-- C1 witness: the amended theorem at a concrete closed-while-unclaimed
listing. -/
theorem C1_close_terminal_witness :
    market_close (fun r => if r = "poland".toList then some ⟨20, [44]⟩ else none)
        ⟨6, [], false⟩
        ⟨[⟨[], some (market_meta 6 "poland".toList 0)⟩], false⟩
      = (.closedOk, ⟨[⟨[("Status".toList, statusClosedText)],
          some (market_meta 6 "poland".toList 0)⟩], true⟩) ∧
    market_contact (fun r => if r = "poland".toList then some ⟨20, [44]⟩ else none)
        ⟨8, [20], false⟩
        ⟨[⟨[("Status".toList, statusClosedText)],
          some (market_meta 6 "poland".toList 0)⟩], true⟩
      = (.contacted, ⟨[⟨[("Status".toList, statusClosedText)],
          some (market_meta 6 "poland".toList 0)⟩], true⟩) ∧
    market_claim (fun r => if r = "poland".toList then some ⟨20, [44]⟩ else none)
        ⟨8, [20], false⟩
        ⟨[⟨[("Status".toList, statusClosedText)],
          some (market_meta 6 "poland".toList 0)⟩], true⟩
      = (.claimedOk, ⟨[⟨[("Status".toList, statusClaimedText 8)],
          some (market_meta 6 "poland".toList 8)⟩], true⟩) := by
  have h := C1_close_terminal_amended
    (fun r => if r = "poland".toList then some ⟨20, [44]⟩ else none)
    ⟨6, [], false⟩ ⟨8, [20], false⟩ 6 0 "poland".toList [] false ⟨20, [44]⟩
    (by decide) (by decide) (by decide) (by decide) (by simp)
    (by left; rfl) (by decide) (by right; decide)
  exact ⟨h.1, h.2.1, h.2.2.2 rfl⟩

/-- Number of rows of a table carrying a given key. -/
def countKey {V : Type} (t : List ((Nat × Nat) × V)) (k : Nat × Nat) : Nat :=
  (t.filter (fun kv => kv.1 == k)).length

theorem countKey_upsert {V : Type} (t : List ((Nat × Nat) × V)) (k : Nat × Nat) (v : V) :
    countKey (tblUpsert t k v) k = 1 := by
  simp only [countKey, tblUpsert, tblDelete, List.filter_append]
  have h1 : (t.filter (fun kv => kv.1 != k)).filter (fun kv => kv.1 == k) = [] := by
    rw [List.filter_eq_nil_iff]
    intro kv hkv
    have := List.of_mem_filter hkv
    simp only [bne_iff_ne, ne_eq] at this
    simp [this]
  rw [h1]
  simp

/-- C8: muting an already-muted member returns the already-muted outcome with
no change to the store or the member; consequently muting twice leaves the
sentinel role held exactly once and exactly one `mutes` row. -/
theorem C8_mute_idempotent (g : GuildEnv) (st : MuteState) (guild_id : Nat) (user : Member)
    (minuten : Option Int) (now : Int)
    (hadmin : user.isAdmin = false)
    (hnot : user.roles.any (fun r => r.id == g.mutedRole.id) = false)
    (hadd : g.addRolesFails = false) :
    (mute g st guild_id user minuten now).1 = .muted ∧
    ((mute g st guild_id user minuten now).2.2.roles.filter
        (fun r => r.id == g.mutedRole.id)).length = 1 ∧
    countKey (mute g st guild_id user minuten now).2.1.mutes (guild_id, user.id) = 1 ∧
    mute g (mute g st guild_id user minuten now).2.1 guild_id
        (mute g st guild_id user minuten now).2.2 minuten now
      = (.alreadyMuted, (mute g st guild_id user minuten now).2.1,
         (mute g st guild_id user minuten now).2.2) := by
  have hnomem : ∀ r ∈ user.roles, (r.id == g.mutedRole.id) = false := by
    intro r hr
    by_contra hne
    rw [List.any_eq_false] at hnot
    exact (hnot r hr) (by simpa using hne)
  have hfilnil : ∀ roles' : List Role, (∀ r ∈ roles', r ∈ user.roles) →
      roles'.filter (fun r => r.id == g.mutedRole.id) = [] := by
    intro roles' hsub
    rw [List.filter_eq_nil_iff]
    intro r hr
    simp [hnomem r (hsub r hr)]
  by_cases hrf : g.removeRolesFails
  · simp only [mute, hadmin, Bool.false_eq_true, if_false, hnot, hadd, hrf, if_true]
    have hany2 : ((user.roles ++ [g.mutedRole]).any
        (fun r => r.id == g.mutedRole.id)) = true := by
      rw [List.any_eq_true]
      exact ⟨g.mutedRole, by simp, by simp⟩
    refine ⟨trivial, ?_, countKey_upsert _ _ _, ?_⟩
    · simp only [List.filter_append, hfilnil user.roles (fun r hr => hr)]
      simp
    · simp [mute, hadmin, hany2]
  · simp only [mute, hadmin, Bool.false_eq_true, if_false, hnot, hadd, hrf, if_true]
    have hsub : ∀ r ∈ user.roles.filter
        (fun r => !((user.roles.filter (fun r => !r.isDefault && r.id != g.mutedRole.id
          && can_bot_manage_role g r)).any (fun q => q.id == r.id))), r ∈ user.roles :=
      fun r hr => List.mem_of_mem_filter hr
    have hany2 : ((user.roles.filter
        (fun r => !((user.roles.filter (fun r => !r.isDefault && r.id != g.mutedRole.id
          && can_bot_manage_role g r)).any (fun q => q.id == r.id)))
        ++ [g.mutedRole]).any (fun r => r.id == g.mutedRole.id)) = true := by
      rw [List.any_eq_true]
      exact ⟨g.mutedRole, by simp, by simp⟩
    refine ⟨trivial, ?_, countKey_upsert _ _ _, ?_⟩
    · simp only [List.filter_append, hfilnil _ hsub]
      simp
    · simp [mute, hadmin, hany2]

/-- C8 witness: the idempotency theorem at a concrete guild and member. -/
theorem C8_mute_idempotent_witness :
    (mute ⟨[], 5, ⟨100, 1, false, false⟩, [], false, false⟩ ⟨[], []⟩ 1 ⟨3, [], false⟩
        (some 10) 0).1 = .muted ∧
    ((mute ⟨[], 5, ⟨100, 1, false, false⟩, [], false, false⟩ ⟨[], []⟩ 1 ⟨3, [], false⟩
        (some 10) 0).2.2.roles.filter (fun r => r.id == 100)).length = 1 ∧
    countKey (mute ⟨[], 5, ⟨100, 1, false, false⟩, [], false, false⟩ ⟨[], []⟩ 1
        ⟨3, [], false⟩ (some 10) 0).2.1.mutes (1, 3) = 1 ∧
    mute ⟨[], 5, ⟨100, 1, false, false⟩, [], false, false⟩
        (mute ⟨[], 5, ⟨100, 1, false, false⟩, [], false, false⟩ ⟨[], []⟩ 1 ⟨3, [], false⟩
          (some 10) 0).2.1 1
        (mute ⟨[], 5, ⟨100, 1, false, false⟩, [], false, false⟩ ⟨[], []⟩ 1 ⟨3, [], false⟩
          (some 10) 0).2.2 (some 10) 0
      = (.alreadyMuted,
         (mute ⟨[], 5, ⟨100, 1, false, false⟩, [], false, false⟩ ⟨[], []⟩ 1 ⟨3, [], false⟩
           (some 10) 0).2.1,
         (mute ⟨[], 5, ⟨100, 1, false, false⟩, [], false, false⟩ ⟨[], []⟩ 1 ⟨3, [], false⟩
           (some 10) 0).2.2) :=
  C8_mute_idempotent ⟨[], 5, ⟨100, 1, false, false⟩, [], false, false⟩ ⟨[], []⟩ 1
    ⟨3, [], false⟩ (some 10) 0 rfl rfl rfl

/-- C7: a member holding exactly the grants A, B, C of which the bot can
revoke A and B but not C holds exactly the sentinel and C after `mute`, and
holds A, B, C again (as a set — order not required) after a subsequent
`unmute`. -/
theorem C7_snapshot_fidelity (g : GuildEnv) (st : MuteState) (guild_id uid : Nat)
    (A B C : Role) (minuten : Option Int) (now : Int)
    (hrf : g.removeRolesFails = false) (haf : g.addRolesFails = false)
    (hA : can_bot_manage_role g A = true) (hB : can_bot_manage_role g B = true)
    (hC : can_bot_manage_role g C = false) (hCdef : C.isDefault = false)
    (hgetA : get_role g A.id = some A) (hgetB : get_role g B.id = some B)
    (hgetC : get_role g C.id = some C)
    (hCA : C.id ≠ A.id) (hCB : C.id ≠ B.id)
    (hmA : A.id ≠ g.mutedRole.id) (hmB : B.id ≠ g.mutedRole.id)
    (hmC : C.id ≠ g.mutedRole.id) :
    (mute g st guild_id ⟨uid, [A, B, C], false⟩ minuten now).2.2.roles
      = [C, g.mutedRole] ∧
    ((unmute g (mute g st guild_id ⟨uid, [A, B, C], false⟩ minuten now).2.1 guild_id
        (mute g st guild_id ⟨uid, [A, B, C], false⟩ minuten now).2.2).2.2.roles).Perm
      [A, B, C] := by
  have hAdef : A.isDefault = false := by
    simp only [can_bot_manage_role, Bool.and_eq_true, Bool.not_eq_true'] at hA
    exact hA.1.1
  have hBdef : B.isDefault = false := by
    simp only [can_bot_manage_role, Bool.and_eq_true, Bool.not_eq_true'] at hB
    exact hB.1.1
  have hAman : A.managed = false := by
    simp only [can_bot_manage_role, Bool.and_eq_true, Bool.not_eq_true'] at hA
    exact hA.1.2
  have hBman : B.managed = false := by
    simp only [can_bot_manage_role, Bool.and_eq_true, Bool.not_eq_true'] at hB
    exact hB.1.2
  have bA : (A.id != g.mutedRole.id) = true := by simp [hmA]
  have bB : (B.id != g.mutedRole.id) = true := by simp [hmB]
  have bC : (C.id != g.mutedRole.id) = true := by simp [hmC]
  have bAC : (A.id == C.id) = false := by simp [Ne.symm hCA]
  have bBC : (B.id == C.id) = false := by simp [Ne.symm hCB]
  have hnot : (([A, B, C] : List Role).any (fun r => r.id == g.mutedRole.id)) = false := by
    simp [hmA, hmB, hmC]
  have hremove : (([A, B, C] : List Role).filter
      (fun r => !r.isDefault && r.id != g.mutedRole.id && can_bot_manage_role g r))
      = [A, B] := by
    simp [List.filter, hAdef, hBdef, hCdef, hA, hB, hC, bA, bB, bC]
  have hbackup : (([A, B, C] : List Role).filter
      (fun r => !r.isDefault && r.id != g.mutedRole.id)) = [A, B, C] := by
    simp [List.filter, hAdef, hBdef, hCdef, bA, bB, bC]
  have hleft : (([A, B, C] : List Role).filter
      (fun r => !(([A, B] : List Role).any (fun q => q.id == r.id)))) = [C] := by
    simp [List.filter, bAC, bBC]
  have hmute : mute g st guild_id ⟨uid, [A, B, C], false⟩ minuten now
      = (.muted,
         { mutes := tblUpsert
             (save_mute_roles_backup st guild_id uid [A.id, B.id, C.id]).mutes (guild_id, uid)
             (match minuten with
              | some m => if m > 0 then some (now + m) else none
              | none => none),
           backups := (save_mute_roles_backup st guild_id uid [A.id, B.id, C.id]).backups },
         ⟨uid, [C, g.mutedRole], false⟩) := by
    simp only [mute, Bool.false_eq_true, if_false, hnot, hrf, haf, hremove, hbackup, hleft]
    rfl
  rw [hmute]
  refine ⟨rfl, ?_⟩
  have hany : (([C, g.mutedRole] : List Role).any (fun r => r.id == g.mutedRole.id)) = true := by
    simp
  have hstrip : (([C, g.mutedRole] : List Role).filter
      (fun r => r.id != g.mutedRole.id)) = [C] := by
    simp [List.filter, bC]
  have htoAdd : (([A.id, B.id, C.id] : List Nat).filterMap (fun rid =>
      match get_role g rid with
      | none => none
      | some role =>
        if role.managed || role.isDefault then none
        else if !(can_bot_manage_role g role) then none
        else some role)) = [A, B] := by
    rw [List.filterMap_cons, List.filterMap_cons, List.filterMap_cons, List.filterMap_nil]
    simp only [hgetA, hgetB, hgetC, hAman, hBman, hAdef, hBdef, hCdef, hA, hB, hC]
    by_cases hCman : C.managed = true
    · simp [hCman]
    · simp only [Bool.not_eq_true] at hCman
      simp [hCman]
  simp only [unmute, hany, Bool.not_true, Bool.false_eq_true, if_false, hrf, hstrip]
  simp only [pop_mute_roles_backup, save_mute_roles_backup, tblLookup_upsert,
    deserialize_serialize, htoAdd]
  have hne : ([A, B] : List Role) ≠ [] := by simp
  simp only [hne, haf, and_false, false_and, if_false, ite_false]
  show (([C] ++ [A, B] : List Role)).Perm [A, B, C]
  have h1 : (([C] ++ [A, B] : List Role)).Perm ([A, B] ++ [C]) := List.perm_append_comm
  simpa using h1

/-- C7 witness: snapshot fidelity at a concrete guild with grants 1, 2
revocable and grant 3 outranking the bot. -/
theorem C7_snapshot_fidelity_witness :
    (mute ⟨[⟨1, 1, false, false⟩, ⟨2, 2, false, false⟩, ⟨3, 20, false, false⟩], 10,
        ⟨100, 1, false, false⟩, [], false, false⟩ ⟨[], []⟩ 1
        ⟨5, [⟨1, 1, false, false⟩, ⟨2, 2, false, false⟩, ⟨3, 20, false, false⟩], false⟩
        none 0).2.2.roles
      = [⟨3, 20, false, false⟩, ⟨100, 1, false, false⟩] ∧
    ((unmute ⟨[⟨1, 1, false, false⟩, ⟨2, 2, false, false⟩, ⟨3, 20, false, false⟩], 10,
        ⟨100, 1, false, false⟩, [], false, false⟩
        (mute ⟨[⟨1, 1, false, false⟩, ⟨2, 2, false, false⟩, ⟨3, 20, false, false⟩], 10,
          ⟨100, 1, false, false⟩, [], false, false⟩ ⟨[], []⟩ 1
          ⟨5, [⟨1, 1, false, false⟩, ⟨2, 2, false, false⟩, ⟨3, 20, false, false⟩], false⟩
          none 0).2.1 1
        (mute ⟨[⟨1, 1, false, false⟩, ⟨2, 2, false, false⟩, ⟨3, 20, false, false⟩], 10,
          ⟨100, 1, false, false⟩, [], false, false⟩ ⟨[], []⟩ 1
          ⟨5, [⟨1, 1, false, false⟩, ⟨2, 2, false, false⟩, ⟨3, 20, false, false⟩], false⟩
          none 0).2.2).2.2.roles).Perm
      [⟨1, 1, false, false⟩, ⟨2, 2, false, false⟩, ⟨3, 20, false, false⟩] :=
  C7_snapshot_fidelity
    ⟨[⟨1, 1, false, false⟩, ⟨2, 2, false, false⟩, ⟨3, 20, false, false⟩], 10,
      ⟨100, 1, false, false⟩, [], false, false⟩ ⟨[], []⟩ 1 5
    ⟨1, 1, false, false⟩ ⟨2, 2, false, false⟩ ⟨3, 20, false, false⟩ none 0
    rfl rfl (by decide) (by decide) (by decide) rfl rfl rfl rfl
    (by decide) (by decide) (by decide) (by decide) (by decide)

theorem autoProcess_mutes (g : GuildEnv) (st : MuteState) (gid uid : Nat) :
    (autoProcess g st gid uid).1.mutes = tblDelete st.mutes (gid, uid) := by
  unfold autoProcess
  cases hfind : g.members.find? (fun m => m.id == uid) with
  | none => rfl
  | some m =>
    simp only
    by_cases h1 : (m.roles.any (fun r => r.id == g.mutedRole.id)) = true
    · simp only [h1, if_true]
      by_cases h2 : g.removeRolesFails = true
      · simp [h2]
      · simp only [h2, Bool.false_eq_true, if_false]
        rfl
    · simp only [Bool.not_eq_true] at h1
      simp [h1]

theorem step_mutes_absent (env : BotEnv) (now : Int) (acc : MuteState)
    (row : Nat × Nat × Int) (k : Nat × Nat)
    (h : k ∉ acc.mutes.map Prod.fst) :
    k ∉ (auto_unmute_step env now acc row).mutes.map Prod.fst := by
  unfold auto_unmute_step
  by_cases ht : now ≥ row.2.2
  · simp only [ht, if_true]
    cases hg : get_guild env row.1 with
    | none => exact h
    | some g =>
      simp only
      rw [autoProcess_mutes]
      intro hk
      obtain ⟨kv, hkv, hfst⟩ := List.mem_map.mp hk
      exact h (List.mem_map.mpr ⟨kv, List.mem_of_mem_filter hkv, hfst⟩)
  · simp only [ht, if_false]
    exact h

theorem step_mutes_kill (env : BotEnv) (now : Int) (acc : MuteState)
    (gid uid : Nat) (t : Int) (g : GuildEnv)
    (ht : now ≥ t) (hg : get_guild env gid = some g) :
    (gid, uid) ∉ (auto_unmute_step env now acc (gid, uid, t)).mutes.map Prod.fst := by
  unfold auto_unmute_step
  simp only [ht, if_true, hg]
  rw [autoProcess_mutes]
  intro hk
  obtain ⟨kv, hkv, hfst⟩ := List.mem_map.mp hk
  have := List.of_mem_filter hkv
  rw [hfst] at this
  simp at this

theorem step_mutes_stale (env : BotEnv) (now : Int) (acc : MuteState)
    (row : Nat × Nat × Int) (gid uid : Nat) (v : Option Int)
    (hg : get_guild env gid = none)
    (hmem : ((gid, uid), v) ∈ acc.mutes) :
    ((gid, uid), v) ∈ (auto_unmute_step env now acc row).mutes := by
  unfold auto_unmute_step
  by_cases ht : now ≥ row.2.2
  · simp only [ht, if_true]
    cases hgr : get_guild env row.1 with
    | none => exact hmem
    | some g2 =>
      simp only
      rw [autoProcess_mutes]
      apply List.mem_filter.mpr
      refine ⟨hmem, ?_⟩
      have hne : (gid, uid) ≠ (row.1, row.2.1) := by
        intro heq
        have : gid = row.1 := congrArg Prod.fst heq
        rw [this, hgr] at hg
        cases hg
      simp [hne]
  · simp only [ht, if_false]
    exact hmem

theorem foldl_mutes_absent (env : BotEnv) (now : Int) (k : Nat × Nat) :
    ∀ (rows : List (Nat × Nat × Int)) (acc : MuteState),
      k ∉ acc.mutes.map Prod.fst →
      k ∉ (rows.foldl (auto_unmute_step env now) acc).mutes.map Prod.fst := by
  intro rows
  induction rows with
  | nil => intro acc h; exact h
  | cons r rs ih =>
    intro acc h
    exact ih _ (step_mutes_absent env now acc r k h)

theorem foldl_mutes_kill (env : BotEnv) (now : Int) (gid uid : Nat) (t : Int) (g : GuildEnv)
    (ht : now ≥ t) (hg : get_guild env gid = some g) :
    ∀ (rows : List (Nat × Nat × Int)) (acc : MuteState),
      (gid, uid, t) ∈ rows →
      (gid, uid) ∉ (rows.foldl (auto_unmute_step env now) acc).mutes.map Prod.fst := by
  intro rows
  induction rows with
  | nil => intro acc h; cases h
  | cons r rs ih =>
    intro acc hmem
    rcases List.mem_cons.mp hmem with heq | htail
    · subst heq
      exact foldl_mutes_absent env now (gid, uid) rs _
        (step_mutes_kill env now acc gid uid t g ht hg)
    · exact ih _ htail

theorem foldl_mutes_stale (env : BotEnv) (now : Int) (gid uid : Nat) (v : Option Int)
    (hg : get_guild env gid = none) :
    ∀ (rows : List (Nat × Nat × Int)) (acc : MuteState),
      ((gid, uid), v) ∈ acc.mutes →
      ((gid, uid), v) ∈ (rows.foldl (auto_unmute_step env now) acc).mutes := by
  intro rows
  induction rows with
  | nil => intro acc h; exact h
  | cons r rs ih =>
    intro acc h
    exact ih _ (step_mutes_stale env now acc r gid uid v hg h)

/-- C3 counterexample: an expired Mute Record whose guild is no longer
resolvable is skipped by the sweep (`continue` at bot.py:1737-1738) and is
never deleted, so it is re-swept forever — contradicting the claim that
every expired record is deleted even when the space is unresolvable. -/
theorem C3_expiry_sweep_counterexample :
    (5 : Int) ≥ 0 ∧
    get_guild ⟨[]⟩ 1 = none ∧
    auto_unmute_loop ⟨[]⟩ ⟨[((1, 2), some 0)], []⟩ 5 = ⟨[((1, 2), some 0)], []⟩ := by
  refine ⟨by decide, rfl, ?_⟩
  rfl

/-- C3 amended: on a sweep at time `now`, every Mute Record with a concrete
expiry in the past whose guild still resolves is deleted from the store —
including when the member, or the muted role on the member, is no longer
resolvable; but a record whose guild does not resolve is left in place and
re-swept. -/
theorem C3_expiry_sweep_amended (env : BotEnv) (st : MuteState) (now t : Int)
    (gid uid : Nat) (hmem : ((gid, uid), some t) ∈ st.mutes) (hpast : now ≥ t) :
    (∀ g, get_guild env gid = some g →
      (gid, uid) ∉ (auto_unmute_loop env st now).mutes.map Prod.fst) ∧
    (get_guild env gid = none →
      ((gid, uid), some t) ∈ (auto_unmute_loop env st now).mutes) := by
  have hrow : (gid, uid, t) ∈ st.mutes.filterMap
      (fun kv => kv.2.map (fun t => (kv.1.1, kv.1.2, t))) := by
    rw [List.mem_filterMap]
    exact ⟨((gid, uid), some t), hmem, rfl⟩
  constructor
  · intro g hg
    exact foldl_mutes_kill env now gid uid t g hpast hg _ st hrow
  · intro hg
    exact foldl_mutes_stale env now gid uid (some t) hg _ st hmem

/-- C3 witness: the amended sweep behaviour at a resolvable guild whose
member is gone (record deleted) and at an unresolvable guild (record kept). -/
theorem C3_expiry_sweep_witness :
    ((1 : Nat), (2 : Nat)) ∉
      (auto_unmute_loop ⟨[(1, ⟨[], 10, ⟨100, 1, false, false⟩, [], false, false⟩)]⟩
        ⟨[((1, 2), some 0)], []⟩ 5).mutes.map Prod.fst ∧
    ((1, 2), some 0) ∈ (auto_unmute_loop ⟨[]⟩ ⟨[((1, 2), some 0)], []⟩ 5).mutes := by
  constructor
  · exact (C3_expiry_sweep_amended
      ⟨[(1, ⟨[], 10, ⟨100, 1, false, false⟩, [], false, false⟩)]⟩
      ⟨[((1, 2), some 0)], []⟩ 5 0 1 2 (by decide) (by decide)).1
      ⟨[], 10, ⟨100, 1, false, false⟩, [], false, false⟩ rfl
  · exact (C3_expiry_sweep_amended ⟨[]⟩ ⟨[((1, 2), some 0)], []⟩ 5 0 1 2
      (by decide) (by decide)).2 rfl

/-- C2 counterexample: manual unmute and the expiry sweep are two separate
code paths with different failure semantics.  On the same starting state and
the same muted member, when revoking the sentinel fails, the manual path
aborts and keeps the Mute Record, while the expiry path still deletes it —
the resulting stores differ, refuting the shared-implementation claim. -/
theorem C2_single_path_counterexample :
    (unmute ⟨[], 10, ⟨100, 1, false, false⟩, [⟨2, [⟨100, 1, false, false⟩], false⟩],
        true, false⟩
      ⟨[((1, 2), some 0)], [((1, 2), "7".toList)]⟩ 1
      ⟨2, [⟨100, 1, false, false⟩], false⟩).1 = .forbiddenRemove ∧
    (unmute ⟨[], 10, ⟨100, 1, false, false⟩, [⟨2, [⟨100, 1, false, false⟩], false⟩],
        true, false⟩
      ⟨[((1, 2), some 0)], [((1, 2), "7".toList)]⟩ 1
      ⟨2, [⟨100, 1, false, false⟩], false⟩).2.1.mutes = [((1, 2), some 0)] ∧
    (autoProcess ⟨[], 10, ⟨100, 1, false, false⟩, [⟨2, [⟨100, 1, false, false⟩], false⟩],
        true, false⟩
      ⟨[((1, 2), some 0)], [((1, 2), "7".toList)]⟩ 1 2).1.mutes = [] ∧
    (unmute ⟨[], 10, ⟨100, 1, false, false⟩, [⟨2, [⟨100, 1, false, false⟩], false⟩],
        true, false⟩
      ⟨[((1, 2), some 0)], [((1, 2), "7".toList)]⟩ 1
      ⟨2, [⟨100, 1, false, false⟩], false⟩).2.1.mutes
      ≠ (autoProcess ⟨[], 10, ⟨100, 1, false, false⟩,
          [⟨2, [⟨100, 1, false, false⟩], false⟩], true, false⟩
        ⟨[((1, 2), some 0)], [((1, 2), "7".toList)]⟩ 1 2).1.mutes := by
  refine ⟨rfl, rfl, rfl, by decide⟩

/-- C2 amended: the two unmute implementations agree on the success path —
for a resolvable, muted member whose sentinel revoke succeeds, manual unmute
and the expiry-path body produce the same resulting store and the same
resulting member role set (including when the role restore fails) — but they
diverge on failure: a failed sentinel revoke preserves the Mute Record under
the manual trigger, while the expiry path still deletes it, and the expiry
path also deletes the record of a no-longer-muted or unresolvable member,
which the manual path leaves untouched. -/
theorem C2_single_path_amended (g : GuildEnv) (st : MuteState) (guild_id : Nat) (m : Member)
    (hfind : g.members.find? (fun x => x.id == m.id) = some m)
    (hmut : m.roles.any (fun r => r.id == g.mutedRole.id) = true)
    (hrf : g.removeRolesFails = false) :
    (unmute g st guild_id m).1 = .unmuted ∧
    (autoProcess g st guild_id m.id).1 = (unmute g st guild_id m).2.1 ∧
    (autoProcess g st guild_id m.id).2 = some (unmute g st guild_id m).2.2 := by
  simp only [unmute, autoProcess, hfind, hmut, Bool.not_true, Bool.false_eq_true, if_false,
    if_true, hrf]
  exact ⟨trivial, trivial, trivial⟩

/-- C2 witness: success-path agreement at a concrete guild and member. -/
theorem C2_single_path_witness :
    (unmute ⟨[⟨7, 1, false, false⟩], 10, ⟨100, 1, false, false⟩,
        [⟨2, [⟨100, 1, false, false⟩], false⟩], false, false⟩
      ⟨[((1, 2), some 0)], [((1, 2), "7".toList)]⟩ 1
      ⟨2, [⟨100, 1, false, false⟩], false⟩).1 = .unmuted ∧
    (autoProcess ⟨[⟨7, 1, false, false⟩], 10, ⟨100, 1, false, false⟩,
        [⟨2, [⟨100, 1, false, false⟩], false⟩], false, false⟩
      ⟨[((1, 2), some 0)], [((1, 2), "7".toList)]⟩ 1 2).1
      = (unmute ⟨[⟨7, 1, false, false⟩], 10, ⟨100, 1, false, false⟩,
          [⟨2, [⟨100, 1, false, false⟩], false⟩], false, false⟩
        ⟨[((1, 2), some 0)], [((1, 2), "7".toList)]⟩ 1
        ⟨2, [⟨100, 1, false, false⟩], false⟩).2.1 ∧
    (autoProcess ⟨[⟨7, 1, false, false⟩], 10, ⟨100, 1, false, false⟩,
        [⟨2, [⟨100, 1, false, false⟩], false⟩], false, false⟩
      ⟨[((1, 2), some 0)], [((1, 2), "7".toList)]⟩ 1 2).2
      = some (unmute ⟨[⟨7, 1, false, false⟩], 10, ⟨100, 1, false, false⟩,
          [⟨2, [⟨100, 1, false, false⟩], false⟩], false, false⟩
        ⟨[((1, 2), some 0)], [((1, 2), "7".toList)]⟩ 1
        ⟨2, [⟨100, 1, false, false⟩], false⟩).2.2 :=
  C2_single_path_amended
    ⟨[⟨7, 1, false, false⟩], 10, ⟨100, 1, false, false⟩,
      [⟨2, [⟨100, 1, false, false⟩], false⟩], false, false⟩
    ⟨[((1, 2), some 0)], [((1, 2), "7".toList)]⟩ 1
    ⟨2, [⟨100, 1, false, false⟩], false⟩ rfl rfl rfl

/-- C4 counterexample: under the expiry trigger a failed sentinel revoke does
not leave the store untouched — the Mute Record is still deleted
(bot.py:1778-1784 run unconditionally once the row expired), so the revoke is
not retried from the same starting state on the expiry path. -/
theorem C4_revoke_abort_counterexample :
    (autoProcess ⟨[], 10, ⟨100, 1, false, false⟩,
        [⟨2, [⟨100, 1, false, false⟩], false⟩], true, false⟩
      ⟨[((1, 2), some 0)], [((1, 2), "7".toList)]⟩ 1 2).1.mutes = [] ∧
    ([((1, 2), some 0)] : List ((Nat × Nat) × Option Int)) ≠ [] := by
  refine ⟨rfl, by decide⟩

/-- C4 amended: when revoking the sentinel fails, the manual trigger aborts
with no further effect — the snapshot is not consumed, the Mute Record is not
deleted, and the exact starting state is returned, so the revoke is
retryable; under the expiry trigger the snapshot is likewise not consumed and
the member untouched, but the Mute Record is deleted anyway. -/
theorem C4_revoke_abort_amended (g : GuildEnv) (st : MuteState) (guild_id : Nat) (m : Member)
    (hmut : m.roles.any (fun r => r.id == g.mutedRole.id) = true)
    (hrf : g.removeRolesFails = true)
    (hfind : g.members.find? (fun x => x.id == m.id) = some m) :
    unmute g st guild_id m = (.forbiddenRemove, st, m) ∧
    autoProcess g st guild_id m.id
      = ({ st with mutes := tblDelete st.mutes (guild_id, m.id) }, some m) := by
  constructor
  · simp [unmute, hmut, hrf]
  · simp [autoProcess, hfind, hmut, hrf]

/-- C4 witness: the amended behaviour at a concrete muted member with a
failing revoke. -/
theorem C4_revoke_abort_witness :
    unmute ⟨[], 10, ⟨100, 1, false, false⟩, [⟨2, [⟨100, 1, false, false⟩], false⟩],
        true, false⟩
      ⟨[((1, 2), some 0)], [((1, 2), "7".toList)]⟩ 1
      ⟨2, [⟨100, 1, false, false⟩], false⟩
      = (.forbiddenRemove, ⟨[((1, 2), some 0)], [((1, 2), "7".toList)]⟩,
         ⟨2, [⟨100, 1, false, false⟩], false⟩) ∧
    autoProcess ⟨[], 10, ⟨100, 1, false, false⟩, [⟨2, [⟨100, 1, false, false⟩], false⟩],
        true, false⟩
      ⟨[((1, 2), some 0)], [((1, 2), "7".toList)]⟩ 1 2
      = ({ mutes := tblDelete ([((1, 2), some 0)] : List ((Nat × Nat) × Option Int)) (1, 2),
           backups := [((1, 2), "7".toList)] },
         some ⟨2, [⟨100, 1, false, false⟩], false⟩) :=
  C4_revoke_abort_amended
    ⟨[], 10, ⟨100, 1, false, false⟩, [⟨2, [⟨100, 1, false, false⟩], false⟩], true, false⟩
    ⟨[((1, 2), some 0)], [((1, 2), "7".toList)]⟩ 1
    ⟨2, [⟨100, 1, false, false⟩], false⟩ rfl rfl rfl
